import Mathlib

/-! Process system calls of OS/161 (`kern/syscall/proc_syscalls.c`)

A shallow embedding of `sys__exit`, `sys_getpid`, `sys_waitpid` and `sys_fork`
as functions on an explicit table of process control blocks, followed by the
properties established about them.

Conventions of the embedding

* A `struct proc *` is a natural number (its kernel address); a nullable
  pointer field is an `Option`.  The table `Kernel` holds the PCBs that are
  currently allocated.  Reading through `NULL`, or through the address of a
  PCB that has been released, stops the routine with `Trap.fault`.
* `int`, `pid_t` are `Int`; the one narrowing conversion of the file, the
  `(int16_t)` cast applied to `array_num`, is the function `int16`.
* `spinlock_acquire` / `spinlock_release` guard single field accesses and have
  no effect on the table; they do not appear.
* `clocksleep(1)` gives the processor away.  What the other threads do to the
  table meanwhile is supplied by the caller of the embedded function as a
  function `Kernel → Kernel`, one for each sleep.
-/

namespace OS161

/-! ## Constants -/

/-- Value `EXITED` of `p_exitstatus` (`#define EXITED 1`). -/
def EXITED : Int := 1

/-- Value `RUNNING` of `p_exitstatus` (`#define RUNNING 0`). -/
def RUNNING : Int := 0

/-- Error number `ENOMEM` of `kern/errno.h`.  The header is not part of the
sources at hand; the numbers are those of OS/161, and nothing below uses more
of them than that they are nonzero and pairwise different. -/
def ENOMEM : Int := 3

/-- Error number `EFAULT` of `kern/errno.h` (see `ENOMEM`). -/
def EFAULT : Int := 6

/-- Error number `EINVAL` of `kern/errno.h` (see `ENOMEM`). -/
def EINVAL : Int := 8

/-- Error number `ESRCH` of `kern/errno.h` (see `ENOMEM`). -/
def ESRCH : Int := 15

/-- Error number `ECHILD` of `kern/errno.h` (see `ENOMEM`). -/
def ECHILD : Int := 16

/-- The null user pointer. -/
def NULL : Nat := 0

/-! ## Machine integers -/

/-- Reduction of an integer to the range of a 32-bit `int`. -/
def int32 (x : Int) : Int :=
  let m := x % 4294967296
  if m < 2147483648 then m else m - 4294967296

/-- The conversion `(int16_t) n` of an `unsigned` value: the low sixteen bits,
read as a two's-complement number. -/
def int16 (n : Nat) : Int :=
  let m := n % 65536
  if m < 32768 then (m : Int) else (m : Int) - 65536

/-- Modelled from the spec: `_MKWAIT_EXIT` of `kern/wait.h`, a header that is
not part of the sources.  The spec calls it the conventional normal-exit
encoding of the exit code into a wait-status word; in OS/161 the code is
shifted left by two bits and the two low bits, zero, say "exited". -/
def _MKWAIT_EXIT (x : Int) : Int := int32 (x * 4)

/-- Modelled from the spec: `WEXITSTATUS` of `kern/wait.h`, the decoding that
goes with `_MKWAIT_EXIT` (an arithmetic shift right by two bits). -/
def WEXITSTATUS (x : Int) : Int := x / 4

/-! ## Process control blocks -/

/-- The fields of `struct proc` that `proc_syscalls.c` reads or writes.  The
declaration itself is in `proc.h`, which is not part of the sources; the
fields are taken from their uses. -/
structure proc where
  /-- Field `pid_t p_pid`. -/
  p_pid : Int
  /-- Field `p_exitstatus`: `RUNNING` or `EXITED`. -/
  p_exitstatus : Int
  /-- Field `p_exitcode`. -/
  p_exitcode : Int
  /-- Field `struct proc *p_parent`; `none` is `NULL`. -/
  p_parent : Option Nat
  /-- Field `struct array *p_children`: the addresses of the child PCBs. -/
  p_children : List Nat
  /-- Field `struct addrspace *p_addrspace`; `none` is `NULL`. -/
  p_addrspace : Option Nat
  deriving DecidableEq, Repr

/-- The allocated PCBs, each with its address. -/
abbrev Kernel := List (Nat × proc)

/-- Ways in which an embedded routine stops without a result. -/
inductive Trap where
  /-- A load or store through `NULL` or through a released PCB. -/
  | fault
  /-- A failed `KASSERT`. -/
  | assert
  /-- The caller is still polling when the supplied schedule ends. -/
  | blocked
  /-- The iteration bound given to a loop was too small. -/
  | fuel
  deriving DecidableEq, Repr

/-- Result of an embedded routine. -/
inductive Res (α : Type) where
  | ok (a : α)
  | trap (t : Trap)
  deriving DecidableEq, Repr

/-- Read the PCB at address `a`: `none` when no PCB is allocated there. -/
def deref : Kernel → Nat → Option proc
  | [], _ => none
  | (b, v) :: rest, a => if b = a then some v else deref rest a

/-- Overwrite the PCB at address `a` (which is allocated) with `v`. -/
def store (k : Kernel) (a : Nat) (v : proc) : Kernel :=
  k.map (fun e => if e.1 = a then (e.1, v) else e)

/-- Modelled from the spec: `proc_destroy` of `proc.c`, which is not part of
the sources.  The spec has it destroy the PCB: the record is released and is
no longer among the live PCBs. -/
def proc_destroy (k : Kernel) (a : Nat) : Kernel :=
  k.filter (fun e => decide (e.1 ≠ a))

/-- A PCB handed out by the allocator at address `a` with contents `v`. -/
def alloc (k : Kernel) (a : Nat) (v : proc) : Kernel :=
  (a, v) :: proc_destroy k a

/-! ## The array interface (`array.h`, not part of the sources)

`p_children` is an OS/161 `struct array` of `struct proc *`.  Its operations
are the usual ones of a resizable array and are rendered on lists. -/

/-- The operation `array_num`: the number of entries, an `unsigned`. -/
def array_num (a : List Nat) : Nat := a.length % 4294967296

/-- The operation `array_get`: the entry at `index`; the index is asserted
to be in range. -/
def array_get (a : List Nat) (index : Nat) : Option Nat := a[index]?

/-- The operation `array_remove`: drop the entry at `index`, the later
entries moving down by one. -/
def array_remove (a : List Nat) (index : Nat) : List Nat := a.eraseIdx index

/-- Modelled from the spec: `array_add`, which the spec describes as inserting
the new PCB into the children collection; the entry goes to the end. -/
def array_add (a : List Nat) (val : Nat) : List Nat := a ++ [val]

/-! ## `sys__exit` -/

/-- The child loop of `sys__exit` (lines 44-56), from index `i` on:
`for (i = 0; i < (int16_t) array_num(p->p_children); i++)` takes the entry at
`i`, removes it from the array, and then either destroys the child (when its
`p_exitstatus` is `EXITED`) or clears its `p_parent`.  Every iteration removes
one entry, so `array_num + 1` suffices as the `fuel`. -/
def exit_loop : Nat → Kernel → Nat → Nat → Res Kernel
  | 0, _, _, _ => .trap .fuel
  | fuel + 1, k, p, i =>
    match deref k p with
    | none => .trap .fault
    | some pp =>
      if (i : Int) < int16 (array_num pp.p_children) then
        match array_get pp.p_children i with
        | none => .trap .assert
        | some temp_child =>
          let k1 := store k p { pp with p_children := array_remove pp.p_children i }
          match deref k1 temp_child with
          | none => .trap .fault
          | some c =>
            if c.p_exitstatus = EXITED then
              exit_loop fuel (proc_destroy k1 temp_child) p (i + 1)
            else
              exit_loop fuel (store k1 temp_child { c with p_parent := none }) p (i + 1)
      else .ok k

/-- The last step of `sys__exit` (lines 66-74): the test
`p->p_parent->p_exitstatus == RUNNING` and its two branches. -/
def exit_final (k : Kernel) (p : Nat) : Res Kernel :=
  match deref k p with
  | none => .trap .fault
  | some pp =>
    match pp.p_parent with
    | none => .trap .fault
    | some parent =>
      match deref k parent with
      | none => .trap .fault
      | some par =>
        if par.p_exitstatus = RUNNING then
          let p1 : proc := { pp with p_exitstatus := EXITED }
          .ok (store k p { p1 with p_exitcode := p1.p_exitstatus })
        else
          .ok (proc_destroy k p)

/-- The routine `sys__exit(exitcode)` run by the process at `curproc`: the
table at the moment the thread exits.  (`exitcode` is only cast to `void` and
printed by the source.) -/
def sys__exit (k : Kernel) (curproc : Nat) (exitcode : Int) : Res Kernel :=
  let _ := exitcode
  let p := curproc
  match deref k curproc with
  | none => .trap .fault
  | some cp =>
    if cp.p_addrspace = none then .trap .assert
    else
      let k0 := store k curproc { cp with p_addrspace := none }
      match exit_loop (cp.p_children.length + 1) k0 p 0 with
      | .trap t => .trap t
      | .ok k1 => exit_final k1 p

/-- The table `k1` comes from the table `k` without a new PCB and without a
change of a `p_exitstatus`, and the PCBs of `k` that are missing in `k1` had
`p_exitstatus == EXITED`. -/
def releases_only_exited (k k1 : Kernel) : Prop :=
  ∀ a, (deref k a = none → deref k1 a = none) ∧
    ∀ pa, deref k a = some pa →
      (∃ pb, deref k1 a = some pb ∧ pb.p_exitstatus = pa.p_exitstatus) ∨
      (deref k1 a = none ∧ pa.p_exitstatus = EXITED)

/-! ## `sys_getpid` -/

/-- The routine `sys_getpid`: the return value, the value stored to `*retval`
and the table after the call (the routine writes to no PCB). -/
def sys_getpid (k : Kernel) (curproc : Nat) : Res (Int × Int × Kernel) :=
  match deref k curproc with
  | none => .trap .fault
  | some cp => .ok (0, cp.p_pid, k)

/-! ## `sys_waitpid` -/

/-- What a call of `sys_waitpid` leaves behind. -/
structure WaitResult where
  /-- The value returned: `0` or an error number. -/
  ret : Int
  /-- The value stored to `*retval`, if a store was made. -/
  retval : Option Int
  /-- The word copied out to the `status` location, if one was. -/
  status : Option Int
  /-- The table after the call. -/
  k : Kernel
  deriving DecidableEq, Repr

/-- The search loop of `sys_waitpid` (lines 126-133) for the `n` indices from
`i` on: the index and address of the first entry whose `p_pid` is `pid`.  The
array does not change before the `break`, so the bound
`(int16_t) array_num(...)` is the same at every test of the condition. -/
def waitpid_scan (k : Kernel) (children : List Nat) (pid : Int) :
    Nat → Nat → Res (Option (Nat × Nat))
  | 0, _ => .ok none
  | n + 1, i =>
    match array_get children i with
    | none => .trap .assert
    | some c =>
      match deref k c with
      | none => .trap .fault
      | some ch =>
        if ch.p_pid = pid then .ok (some (i, c))
        else waitpid_scan k children pid n (i + 1)

/-- The polling loop of `sys_waitpid` (lines 137-143):
`while (!temp_child->p_exitstatus) clocksleep(1);`.  The list `sched` gives,
for each sleep, what the other threads do meanwhile. -/
def waitpid_poll : List (Kernel → Kernel) → Kernel → Nat → Res Kernel
  | [], k, temp_child =>
    match deref k temp_child with
    | none => .trap .fault
    | some c => if c.p_exitstatus ≠ 0 then .ok k else .trap .blocked
  | f :: rest, k, temp_child =>
    match deref k temp_child with
    | none => .trap .fault
    | some c =>
      if c.p_exitstatus ≠ 0 then .ok k else waitpid_poll rest (f k) temp_child

/-- The routine `sys_waitpid(pid, status, options, retval)` called by the
process at `curproc`.  `copyout` gives the return value of
`copyout(&exitstatus, status, sizeof(int))` for a user address. -/
def sys_waitpid (copyout : Nat → Int) (sched : List (Kernel → Kernel))
    (k : Kernel) (curproc : Nat) (pid : Int) (status : Nat) (options : Int) :
    Res WaitResult :=
  match deref k curproc with
  | none => .trap .fault
  | some cp =>
    if cp.p_pid = pid then .ok ⟨ECHILD, none, none, k⟩
    else if status = NULL then .ok ⟨EFAULT, none, none, k⟩
    else
      match waitpid_scan k cp.p_children pid
          (int16 (array_num cp.p_children)).toNat 0 with
      | .trap t => .trap t
      | .ok none => .ok ⟨ESRCH, none, none, k⟩
      | .ok (some (i, temp_child)) =>
        let k1 := store k curproc
          { cp with p_children := array_remove cp.p_children i }
        match waitpid_poll sched k1 temp_child with
        | .trap t => .trap t
        | .ok k2 =>
          match deref k2 temp_child with
          | none => .trap .fault
          | some c =>
            let exitstatus := _MKWAIT_EXIT c.p_exitcode
            let k3 := proc_destroy k2 temp_child
            if options ≠ 0 then .ok ⟨EINVAL, none, none, k3⟩
            else
              let result := copyout status
              if result ≠ 0 then .ok ⟨result, none, none, k3⟩
              else .ok ⟨0, some pid, some exitstatus, k3⟩

/-- What the other threads may do during a sleep of the process at `curproc`
that is inside `sys_waitpid`: they leave its pid and its children array
alone, and they neither release nor renumber the PCBs entered in that array
(only `curproc` itself removes or destroys its children). -/
def sleep_respects (curproc : Nat) (f : Kernel → Kernel) : Prop :=
  ∀ k cp, deref k curproc = some cp →
    ∃ cp2, deref (f k) curproc = some cp2 ∧ cp2.p_pid = cp.p_pid ∧
      cp2.p_children = cp.p_children ∧
      ∀ x ∈ cp.p_children,
        (deref (f k) x).map (fun p => p.p_pid) = (deref k x).map (fun p => p.p_pid)

/-! ## `sys_fork` -/

/-- What the collaborators of `sys_fork` do in one call. -/
structure ForkEnv where
  /-- Whether `kmalloc(sizeof(struct trapframe))` returned a block. -/
  kmalloc : Bool
  /-- The PCB returned by `proc_create_runprogram`, with its address;
  `none` is `NULL`. -/
  proc_create_runprogram : Option (Nat × proc)
  /-- Return value of `as_copy`. -/
  as_copy : Int
  /-- The address space `as_copy` stores to `child->p_addrspace` on success. -/
  as_copy_out : Nat
  /-- Return value of `thread_fork`. -/
  thread_fork : Int
  /-- What the other threads do during the final `clocksleep(1)`. -/
  clocksleep : Kernel → Kernel

/-- What a call of `sys_fork` leaves behind. -/
structure ForkResult where
  /-- The value returned: `0` or an error number. -/
  ret : Int
  /-- The value stored to `*retval`, if a store was made. -/
  retval : Option Int
  /-- The table after the call. -/
  k : Kernel
  deriving DecidableEq, Repr

/-- The table of `sys_fork` after `child->p_parent = curproc` and
`array_add(curproc->p_children, child, ...)` (lines 192-193), for the child
PCB `init` allocated at address `child`. -/
def fork_link (k : Kernel) (curproc child : Nat) (init : proc) : Res Kernel :=
  let k1 := alloc k child init
  let k2 := store k1 child { init with p_parent := some curproc }
  match deref k2 curproc with
  | none => .trap .fault
  | some cp =>
    .ok (store k2 curproc { cp with p_children := array_add cp.p_children child })

/-- The routine `sys_fork(retval, tf)` called by the process at `curproc`. -/
def sys_fork (env : ForkEnv) (k : Kernel) (curproc : Nat) : Res ForkResult :=
  if env.kmalloc = false then .ok ⟨ENOMEM, none, k⟩
  else
    match env.proc_create_runprogram with
    | none => .ok ⟨ENOMEM, none, k⟩
    | some (child, init) =>
      match fork_link k curproc child init with
      | .trap t => .trap t
      | .ok k3 =>
        if env.as_copy ≠ 0 then .ok ⟨ENOMEM, none, proc_destroy k3 child⟩
        else
          match deref k3 child with
          | none => .trap .fault
          | some c0 =>
            let k4 := store k3 child { c0 with p_addrspace := some env.as_copy_out }
            if env.thread_fork ≠ 0 then
              .ok ⟨env.thread_fork, none, proc_destroy k4 child⟩
            else
              match deref k4 child with
              | none => .trap .fault
              | some c => .ok ⟨0, some c.p_pid, env.clocksleep k4⟩

/-! ## Sample tables

Small process tables on which the routines are run below.  Addresses are
`1` (a first process), `100`, `200`, `300`; every running process has an
address space. -/

/-- A PCB with exit code `0` and an address space. -/
def pcb (pid exitstatus : Int) (parent : Option Nat) (children : List Nat) : proc :=
  { p_pid := pid, p_exitstatus := exitstatus, p_exitcode := 0, p_parent := parent,
    p_children := children, p_addrspace := some 7 }

/-- A PCB after its own `sys__exit` left it as a zombie: `EXITED`, exit code
as the source sets it, no address space. -/
def zombie (pid : Int) (parent : Option Nat) (children : List Nat) : proc :=
  { p_pid := pid, p_exitstatus := 1, p_exitcode := 1, p_parent := parent,
    p_children := children, p_addrspace := none }

/-- Process `1` with its child `A` (address `100`, pid `10`), both running,
`A` without children. -/
def table_A : Kernel :=
  [(1, pcb 1 0 none [100]), (100, pcb 10 0 (some 1) [])]

/-- Collaborators of a `sys_fork` in which everything succeeds: the new PCB is
at address `200` and has pid `20`. -/
def fork_ok : ForkEnv :=
  { kmalloc := true,
    proc_create_runprogram := some (200, ⟨20, 0, 0, none, [], none⟩),
    as_copy := 0, as_copy_out := 9, thread_fork := 0, clocksleep := fun k => k }

/-- As `fork_ok`, but `as_copy` fails. -/
def fork_as_copy_fails : ForkEnv := { fork_ok with as_copy := ENOMEM }

/-- As `fork_ok`, but `thread_fork` fails, with `ENOMEM`. -/
def fork_thread_fork_fails : ForkEnv := { fork_ok with thread_fork := ENOMEM }

/-- The table `table_A` after `A` forked `B` (address `200`, pid `20`). -/
def table_AB : Kernel :=
  [(200, ⟨20, 0, 0, some 100, [], some 9⟩), (1, pcb 1 0 none [100]),
   (100, pcb 10 0 (some 1) [200])]

/-- Process `1`, its running child `A` at `100`, and two running children of
`A` at `200` and `300`. -/
def table_two_running : Kernel :=
  [(1, pcb 1 0 none [100]), (100, pcb 10 0 (some 1) [200, 300]),
   (200, pcb 20 0 (some 100) []), (300, pcb 30 0 (some 100) [])]

/-- As `table_two_running`, but the two children of `A` have exited and have
not been waited for. -/
def table_two_zombies : Kernel :=
  [(1, pcb 1 0 none [100]), (100, pcb 10 0 (some 1) [200, 300]),
   (200, zombie 20 (some 100) []), (300, zombie 30 (some 100) [])]

/-- The table `table_AB` after `B` exited while `A` was running. -/
def table_AB_zombie : Kernel :=
  [(200, zombie 20 (some 100) []), (1, pcb 1 0 none [100]),
   (100, pcb 10 0 (some 1) [200])]

/-- What happens during a sleep of the waiting parent in which the process at
`200` runs `sys__exit(0)` to its end. -/
def child_exits : Kernel → Kernel := fun k =>
  match sys__exit k 200 0 with
  | .ok k1 => k1
  | .trap _ => k

/-- What happens during a sleep in which the process at `a` reaches lines
68-69 of its `sys__exit`: its `p_exitstatus` and `p_exitcode` become
`EXITED`. -/
def sets_exited (a : Nat) : Kernel → Kernel := fun k =>
  match deref k a with
  | none => k
  | some p => store k a { p with p_exitstatus := EXITED, p_exitcode := EXITED }

/-- As `fork_ok`, but `thread_fork` fails with the error number `4`, which is
not `ENOMEM`. -/
def fork_thread_fork_fails_4 : ForkEnv := { fork_ok with thread_fork := 4 }

/-- The addresses `1000`, ..., `33767` of 32768 child PCBs. -/
def many_children : List Nat := List.range' 1000 32768

/-- Process `1`, its child `A` (address `100`, pid `10`), and 32768 running
children of `A` at the addresses of `many_children`, each with its address as
its pid. -/
def table_many : Kernel :=
  (100, ⟨10, 0, 0, some 1, many_children, some 7⟩) :: (1, pcb 1 0 none [100]) ::
    many_children.map (fun a => (a, pcb (a : Int) 0 (some 100) []))

/-- The table `table_A` after a `sys_fork` of `A` in which `as_copy` failed:
the PCB of the child, at `200`, has been destroyed, and `A`'s children still
hold its address. -/
def table_A_failed_fork : Kernel :=
  [(1, pcb 1 0 none [100]), (100, pcb 10 0 (some 1) [200])]

/-- Collaborators of a later `sys_fork` in which everything succeeds: the
allocator hands out the released address `200` again, for a PCB with the pid
`21`, which no PCB of `table_A_failed_fork` has. -/
def fork_retry : ForkEnv :=
  { fork_ok with proc_create_runprogram := some (200, ⟨21, 0, 0, none, [], none⟩) }

/-- A `copyout` that succeeds at every address. -/
def copyout_ok : Nat → Int := fun _ => 0

/-- A `copyout` that fails with `EFAULT` at every address. -/
def copyout_bad : Nat → Int := fun _ => EFAULT

/-! ## Properties -/

/-! ### Reading the table after a write -/

theorem deref_cons (x : Nat) (w : proc) (rest : Kernel) (a : Nat) :
    deref ((x, w) :: rest) a = if x = a then some w else deref rest a := rfl

theorem store_cons (x : Nat) (w : proc) (rest : Kernel) (a : Nat) (v : proc) :
    store ((x, w) :: rest) a v = (x, if x = a then v else w) :: store rest a v := by
  by_cases h : x = a <;> simp [store, h]

theorem proc_destroy_cons (x : Nat) (w : proc) (rest : Kernel) (a : Nat) :
    proc_destroy ((x, w) :: rest) a =
      if x = a then proc_destroy rest a else (x, w) :: proc_destroy rest a := by
  by_cases h : x = a <;> simp [proc_destroy, List.filter_cons, h]

/-- A store at `a` replaces the PCB read at `a` and no other. -/
theorem deref_store (k : Kernel) (a b : Nat) (v : proc) :
    deref (store k a v) b = if b = a then (deref k a).map (fun _ => v) else deref k b := by
  induction k with
  | nil => simp [store, deref]
  | cons e rest ih =>
    obtain ⟨x, w⟩ := e
    rw [store_cons, deref_cons, deref_cons, deref_cons, ih]
    by_cases hxa : x = a <;> by_cases hb : b = a <;> by_cases hxb : x = b <;>
      simp_all

/-- After `proc_destroy` at `a` nothing is read at `a`; other addresses are
as before. -/
theorem deref_proc_destroy (k : Kernel) (a b : Nat) :
    deref (proc_destroy k a) b = if b = a then none else deref k b := by
  induction k with
  | nil => simp [proc_destroy, deref]
  | cons e rest ih =>
    obtain ⟨x, w⟩ := e
    rw [proc_destroy_cons, deref_cons]
    by_cases hxa : x = a <;> by_cases hb : b = a <;> by_cases hxb : x = b <;>
      simp_all [deref_cons]

/-- A freshly allocated PCB is read back; other addresses are as before. -/
theorem deref_alloc (k : Kernel) (a b : Nat) (v : proc) :
    deref (alloc k a v) b = if b = a then some v else deref k b := by
  unfold alloc
  rw [deref_cons, deref_proc_destroy]
  by_cases hb : b = a
  · simp [hb]
  · have : ¬ a = b := fun h => hb h.symm
    simp [hb, this]


/-- C1 (fails on the code).  `A` forks `B`, `B` calls `sys__exit(c)` while `A`
is running, `A` waits for `B` with options `0` and a good status location:
for every `c` the word copied out is `_MKWAIT_EXIT(1) = 4`, which decodes to
`1`; for `c = 7` the claim asks for `_MKWAIT_EXIT(7) = 28`. -/
theorem exit_then_wait_status_ignores_code :
    sys_fork fork_ok table_A 100 = .ok ⟨0, some 20, table_AB⟩ ∧
    (∀ c : Int, sys__exit table_AB 200 c =
      .ok [(200, zombie 20 (some 100) []), (1, pcb 1 0 none [100]),
           (100, pcb 10 0 (some 1) [200])]) ∧
    sys_waitpid copyout_ok []
        [(200, zombie 20 (some 100) []), (1, pcb 1 0 none [100]),
         (100, pcb 10 0 (some 1) [200])] 100 20 4096 0 =
      .ok ⟨0, some 20, some (_MKWAIT_EXIT 1),
           [(1, pcb 1 0 none [100]), (100, pcb 10 0 (some 1) [])]⟩ ∧
    _MKWAIT_EXIT 1 = 4 ∧ WEXITSTATUS 4 = 1 ∧ _MKWAIT_EXIT 7 = 28 ∧
    WEXITSTATUS 28 = 7 := by
  refine ⟨by decide, fun c => rfl, by decide, by decide, by decide, by decide, by decide⟩

/-- C2 (fails on the code).  `A` forks `B` and exits first: the child loop
sets `B`'s `p_parent` to `NULL`.  When `B` then exits, the final step reads
`p->p_parent->p_exitstatus` through that `NULL`: the routine stops with a
fault and `B`'s PCB is still allocated. -/
theorem orphan_exit_faults :
    sys__exit table_AB 100 0 =
      .ok [(200, ⟨20, 0, 0, none, [], some 9⟩), (1, pcb 1 0 none [100]),
           (100, zombie 10 (some 1) [])] ∧
    sys__exit [(200, ⟨20, 0, 0, none, [], some 9⟩), (1, pcb 1 0 none [100]),
               (100, zombie 10 (some 1) [])] 200 0 = .trap .fault ∧
    sys__exit table_A 1 0 = .trap .fault := by
  decide

/-- C3 (fails on the code).  A `sys_fork` by `A` in which `as_copy` fails, and
one in which `thread_fork` fails: the call returns an error, the child PCB at
`200` has been destroyed, and its address is still the last entry of `A`'s
children, which were empty before the call. -/
theorem failed_fork_leaves_child_entry :
    sys_fork fork_as_copy_fails table_A 100 =
      .ok ⟨ENOMEM, none, [(1, pcb 1 0 none [100]), (100, pcb 10 0 (some 1) [200])]⟩ ∧
    sys_fork fork_thread_fork_fails table_A 100 =
      .ok ⟨ENOMEM, none, [(1, pcb 1 0 none [100]), (100, pcb 10 0 (some 1) [200])]⟩ ∧
    deref [(1, pcb 1 0 none [100]), (100, pcb 10 0 (some 1) [200])] 200 = none ∧
    (deref table_A 100).map (fun p => p.p_children) = some [] := by
  decide

/-- C4 (fails on the code).  `A` exits with two running children.  The loop
removes the entry at index `i` and then increments `i`, so it stops after the
first child: the second one, at `300`, keeps its parent link to `A` and is
still in `A`'s children. -/
theorem exit_loop_skips_running_child :
    exit_loop 3 table_two_running 100 0 =
      .ok [(1, pcb 1 0 none [100]), (100, pcb 10 0 (some 1) [300]),
           (200, pcb 20 0 none []), (300, pcb 30 0 (some 100) [])] ∧
    sys__exit table_two_running 100 0 =
      .ok [(1, pcb 1 0 none [100]), (100, zombie 10 (some 1) [300]),
           (200, pcb 20 0 none []), (300, pcb 30 0 (some 100) [])] := by
  decide

/-- C5 (fails on the code).  `A` exits with two exited children that were
never waited for.  The loop destroys the first and stops: the zombie at `300`
is still allocated after the loop and after the whole of `sys__exit`. -/
theorem exit_loop_skips_zombie_child :
    exit_loop 3 table_two_zombies 100 0 =
      .ok [(1, pcb 1 0 none [100]), (100, pcb 10 0 (some 1) [300]),
           (300, zombie 30 (some 100) [])] ∧
    sys__exit table_two_zombies 100 0 =
      .ok [(1, pcb 1 0 none [100]), (100, zombie 10 (some 1) [300]),
           (300, zombie 30 (some 100) [])] := by
  decide

/-! ### The search loop of `sys_waitpid` -/

/-- The bound `(int16_t) array_num(a)` never exceeds the number of entries. -/
theorem int16_array_num_le (l : List Nat) : (int16 (array_num l)).toNat ≤ l.length := by
  unfold int16 array_num
  simp only
  split_ifs <;> omega

/-- The search finds nothing when every entry it visits is a live PCB with
another pid. -/
theorem waitpid_scan_none (k : Kernel) (l : List Nat) (pid : Int) :
    ∀ n i, (∀ j, i ≤ j → j < i + n →
        ∃ x xh, l[j]? = some x ∧ deref k x = some xh ∧ xh.p_pid ≠ pid) →
      waitpid_scan k l pid n i = .ok none := by
  intro n
  induction n with
  | zero => intro i _; rfl
  | succ n ih =>
    intro i h
    obtain ⟨x, xh, hx, hd, hp⟩ := h i (le_refl i) (by omega)
    have hrec := ih (i + 1) (fun j h1 h2 => h j (by omega) (by omega))
    simp [waitpid_scan, array_get, hx, hd, hp, hrec]

/-- The search returns the first entry with the pid looked for, when the
entries before it are live PCBs with another pid and its index is below the
bound. -/
theorem waitpid_scan_found (k : Kernel) (l : List Nat) (pid : Int) (i0 c : Nat) (ch : proc)
    (hget : l[i0]? = some c) (hc : deref k c = some ch) (hpid : ch.p_pid = pid)
    (hbefore : ∀ j, j < i0 →
        ∃ x xh, l[j]? = some x ∧ deref k x = some xh ∧ xh.p_pid ≠ pid) :
    ∀ d i n, i + d = i0 → d < n → waitpid_scan k l pid n i = .ok (some (i0, c)) := by
  intro d
  induction d with
  | zero =>
    intro i n hi hn
    obtain ⟨m, rfl⟩ : ∃ m, n = m + 1 := ⟨n - 1, by omega⟩
    have : i = i0 := by omega
    subst this
    simp [waitpid_scan, array_get, hget, hc, hpid]
  | succ d ih =>
    intro i n hi hn
    obtain ⟨m, rfl⟩ : ∃ m, n = m + 1 := ⟨n - 1, by omega⟩
    obtain ⟨x, xh, hx, hd, hp⟩ := hbefore i (by omega)
    have hrec := ih (i + 1) m (by omega) (by omega)
    simp [waitpid_scan, array_get, hx, hd, hp, hrec]

/-- When the polling loop ends, the child is allocated and its
`p_exitstatus` is not `RUNNING`. -/
theorem waitpid_poll_ok (c : Nat) :
    ∀ (sched : List (Kernel → Kernel)) (k k2 : Kernel),
      waitpid_poll sched k c = .ok k2 →
      ∃ c2, deref k2 c = some c2 ∧ c2.p_exitstatus ≠ 0 := by
  intro sched
  induction sched with
  | nil =>
    intro k k2 h
    rw [waitpid_poll] at h
    cases hd : deref k c with
    | none => simp [hd] at h
    | some cc =>
      rw [hd] at h
      dsimp only at h
      by_cases hs : cc.p_exitstatus ≠ 0
      · rw [if_pos hs] at h
        injection h with h
        subst h
        exact ⟨cc, hd, hs⟩
      · rw [if_neg hs] at h
        exact Res.noConfusion h
  | cons f rest ih =>
    intro k k2 h
    rw [waitpid_poll] at h
    cases hd : deref k c with
    | none => simp [hd] at h
    | some cc =>
      rw [hd] at h
      dsimp only at h
      by_cases hs : cc.p_exitstatus ≠ 0
      · rw [if_pos hs] at h
        injection h with h
        subst h
        exact ⟨cc, hd, hs⟩
      · rw [if_neg hs] at h
        exact ih (f k) k2 h

/-- The polling loop does not sleep when the child has already exited. -/
theorem waitpid_poll_exited (sched : List (Kernel → Kernel)) (k : Kernel) (c : Nat)
    (cc : proc) (hd : deref k c = some cc) (hs : cc.p_exitstatus ≠ 0) :
    waitpid_poll sched k c = .ok k := by
  cases sched <;> simp [waitpid_poll, hd, hs]

/-! ### The two ways through `sys_waitpid` past its first two tests -/

/-- The call returns `ESRCH` and leaves the table as it is when the target is
not the caller, the status location is not `NULL`, and every entry of the
caller's children is a live PCB with another pid. -/
theorem sys_waitpid_absent (copyout : Nat → Int) (sched : List (Kernel → Kernel))
    (k : Kernel) (curproc : Nat) (cp : proc) (pid : Int) (status : Nat) (options : Int)
    (hcur : deref k curproc = some cp) (hself : cp.p_pid ≠ pid) (hst : status ≠ NULL)
    (hall : ∀ x ∈ cp.p_children, ∃ xh, deref k x = some xh ∧ xh.p_pid ≠ pid) :
    sys_waitpid copyout sched k curproc pid status options =
      .ok ⟨ESRCH, none, none, k⟩ := by
  have hscan : waitpid_scan k cp.p_children pid
      (int16 (array_num cp.p_children)).toNat 0 = .ok none := by
    apply waitpid_scan_none
    intro j _ hj
    have hlt : j < cp.p_children.length := by
      have := int16_array_num_le cp.p_children
      omega
    obtain ⟨xh, hx, hp⟩ := hall _ (List.getElem_mem hlt)
    exact ⟨_, xh, List.getElem?_eq_getElem hlt, hx, hp⟩
  simp [sys_waitpid, hcur, hself, hst, hscan]

/-- The call past the search, when the target is found: the caller's
children are `l1 ++ c :: l2`, the entries of `l1` are live PCBs with another
pid, `c` is a live PCB with the pid waited for, its index is below the loop
bound, and the polling on `c` ends in the table `k2`.  The child is then
destroyed whatever the remaining tests give. -/
theorem sys_waitpid_found (copyout : Nat → Int) (sched : List (Kernel → Kernel))
    (k k2 : Kernel) (curproc : Nat) (cp : proc) (pid : Int) (status : Nat) (options : Int)
    (l1 l2 : List Nat) (c : Nat) (ch : proc)
    (hcur : deref k curproc = some cp) (hself : cp.p_pid ≠ pid) (hst : status ≠ NULL)
    (hsplit : cp.p_children = l1 ++ c :: l2)
    (hbefore : ∀ x ∈ l1, ∃ xh, deref k x = some xh ∧ xh.p_pid ≠ pid)
    (hc : deref k c = some ch) (hpid : ch.p_pid = pid)
    (hrange : (l1.length : Int) < int16 (array_num cp.p_children))
    (hpoll : waitpid_poll sched
      (store k curproc { cp with p_children := l1 ++ l2 }) c = .ok k2) :
    ∃ c2, deref k2 c = some c2 ∧ c2.p_exitstatus ≠ 0 ∧
      sys_waitpid copyout sched k curproc pid status options =
        if options ≠ 0 then .ok ⟨EINVAL, none, none, proc_destroy k2 c⟩
        else if copyout status ≠ 0 then
          .ok ⟨copyout status, none, none, proc_destroy k2 c⟩
        else .ok ⟨0, some pid, some (_MKWAIT_EXIT c2.p_exitcode), proc_destroy k2 c⟩ := by
  have hscan : waitpid_scan k cp.p_children pid
      (int16 (array_num cp.p_children)).toNat 0 = .ok (some (l1.length, c)) := by
    apply waitpid_scan_found k cp.p_children pid l1.length c ch _ hc hpid _ l1.length 0
    · omega
    · omega
    · rw [hsplit, List.getElem?_append_right (le_refl _)]; simp
    · intro j hj
      obtain ⟨xh, hx, hp⟩ := hbefore _ (List.getElem_mem hj)
      refine ⟨l1[j], xh, ?_, hx, hp⟩
      rw [hsplit, List.getElem?_append_left hj, List.getElem?_eq_getElem hj]
  have hrem : array_remove cp.p_children l1.length = l1 ++ l2 := by
    rw [hsplit]; simp [array_remove, List.eraseIdx_append_of_length_le]
  obtain ⟨c2, hc2, hs2⟩ := waitpid_poll_ok c sched _ k2 hpoll
  refine ⟨c2, hc2, hs2, ?_⟩
  simp only [sys_waitpid, hcur, hself, hst, hscan, hrem, hpoll, hc2, if_false]

/-- C10.  Whatever the table, the status location and the option flags:
`sys_waitpid` called by a process with its own pid as the target returns
`ECHILD`, stores nothing, copies nothing out and leaves the table as it
was. -/
theorem sys_waitpid_self_is_ECHILD (copyout : Nat → Int) (sched : List (Kernel → Kernel))
    (k : Kernel) (curproc : Nat) (cp : proc) (status : Nat) (options : Int)
    (hcur : deref k curproc = some cp) :
    sys_waitpid copyout sched k curproc cp.p_pid status options =
      .ok ⟨ECHILD, none, none, k⟩ := by
  simp [sys_waitpid, hcur]

/-- Instance of C10: `A` (pid `10`) waits for pid `10` with nonzero options
and a `NULL` status location. -/
theorem sys_waitpid_self_is_ECHILD_witness :
    deref table_AB 100 = some (pcb 10 0 (some 1) [200]) ∧
    sys_waitpid copyout_bad [] table_AB 100 (pcb 10 0 (some 1) [200]).p_pid NULL 5 =
      .ok ⟨ECHILD, none, none, table_AB⟩ :=
  ⟨by decide,
   sys_waitpid_self_is_ECHILD copyout_bad [] table_AB 100 (pcb 10 0 (some 1) [200]) NULL 5
     (by decide)⟩

/-- C7 (fails on the code as stated).  `A` waits with options `1` and a good
status location for pid `99`, which is not the caller and is no child of `A`:
the search comes before the test of the options, and the call returns `ESRCH`,
not `EINVAL`. -/
theorem sys_waitpid_options_absent_target :
    sys_waitpid copyout_ok [] table_AB 100 99 4096 1 =
      .ok ⟨ESRCH, none, none, table_AB⟩ ∧ ESRCH ≠ EINVAL := by
  decide

/-- C7, amended.  For a call with nonzero options, a target other than the
caller and a status location other than `NULL`:
* when every entry of the caller's children is a live PCB with another pid,
  the call returns `ESRCH` and changes nothing;
* when the target is found among the children (at an index below the loop
  bound) and the polling on it ends, the call returns `EINVAL` and neither
  stores to `*retval` nor copies a status out;
* the call returns no value other than these two. -/
theorem sys_waitpid_nonzero_options (copyout : Nat → Int) (sched : List (Kernel → Kernel))
    (k : Kernel) (curproc : Nat) (cp : proc) (pid : Int) (status : Nat) (options : Int)
    (hcur : deref k curproc = some cp) (hself : cp.p_pid ≠ pid) (hst : status ≠ NULL)
    (hopt : options ≠ 0) :
    ((∀ x ∈ cp.p_children, ∃ xh, deref k x = some xh ∧ xh.p_pid ≠ pid) →
      sys_waitpid copyout sched k curproc pid status options =
        .ok ⟨ESRCH, none, none, k⟩) ∧
    (∀ (l1 l2 : List Nat) (c : Nat) (ch : proc) (k2 : Kernel),
      cp.p_children = l1 ++ c :: l2 →
      (∀ x ∈ l1, ∃ xh, deref k x = some xh ∧ xh.p_pid ≠ pid) →
      deref k c = some ch → ch.p_pid = pid →
      (l1.length : Int) < int16 (array_num cp.p_children) →
      waitpid_poll sched (store k curproc { cp with p_children := l1 ++ l2 }) c = .ok k2 →
      ∃ r, sys_waitpid copyout sched k curproc pid status options = .ok r ∧
        r.ret = EINVAL ∧ r.retval = none ∧ r.status = none) ∧
    (∀ r, sys_waitpid copyout sched k curproc pid status options = .ok r →
      r.ret = ESRCH ∨ r.ret = EINVAL) := by
  refine ⟨fun hall => sys_waitpid_absent copyout sched k curproc cp pid status options
      hcur hself hst hall, ?_, ?_⟩
  · intro l1 l2 c ch k2 hsplit hbefore hc hpid hrange hpoll
    obtain ⟨c2, _, _, h⟩ := sys_waitpid_found copyout sched k k2 curproc cp pid status
      options l1 l2 c ch hcur hself hst hsplit hbefore hc hpid hrange hpoll
    exact ⟨_, by rw [h, if_pos hopt], rfl, rfl, rfl⟩
  · intro r hr
    simp only [sys_waitpid, hcur, hself, hst, if_false] at hr
    split at hr
    · exact Res.noConfusion hr
    · injection hr with hr; subst hr; exact Or.inl rfl
    · split at hr
      · exact Res.noConfusion hr
      · split at hr
        · exact Res.noConfusion hr
        · rw [if_pos hopt] at hr
          injection hr with hr; subst hr; exact Or.inr rfl

/-- Instance of the amended C7: `A` waits for its running child `B` (pid `20`)
with options `1`; `B` exits during the first sleep of `A`.  The call returns
`EINVAL`. -/
theorem sys_waitpid_nonzero_options_witness :
    deref table_AB 100 = some (pcb 10 0 (some 1) [200]) ∧
    (pcb 10 0 (some 1) [200]).p_pid ≠ 20 ∧ 4096 ≠ NULL ∧ (1 : Int) ≠ 0 ∧
    ∃ r, sys_waitpid copyout_ok [child_exits] table_AB 100 20 4096 1 = .ok r ∧
      r.ret = EINVAL ∧ r.retval = none ∧ r.status = none :=
  ⟨by decide, by decide, by decide, by decide,
   (sys_waitpid_nonzero_options copyout_ok [child_exits] table_AB 100
      (pcb 10 0 (some 1) [200]) 20 4096 1 (by decide) (by decide) (by decide)
      (by decide)).2.1 [] [] 200 ⟨20, 0, 0, some 100, [], some 9⟩
      [(200, zombie 20 (some 100) []), (1, pcb 1 0 none [100]),
       (100, pcb 10 0 (some 1) [])]
      (by decide) (by decide) (by decide) (by decide) (by decide) (by decide)⟩

/-- C8 (fails on the code as stated).  `A` waits for its exited child `B` with
a status location other than `NULL` on which `copyout` fails: the error comes
back only after `B` was removed from `A`'s children and destroyed.  And with
`NULL` as the location and the caller's own pid as the target the error is
`ECHILD`, not `EFAULT`. -/
theorem sys_waitpid_copyout_fails_after_reap :
    sys_waitpid copyout_bad [] table_AB_zombie 100 20 4096 0 =
      .ok ⟨EFAULT, none, none, [(1, pcb 1 0 none [100]), (100, pcb 10 0 (some 1) [])]⟩ ∧
    deref table_AB_zombie 200 = some (zombie 20 (some 100) []) ∧
    (deref table_AB_zombie 100).map (fun p => p.p_children) = some [200] ∧
    sys_waitpid copyout_bad [] table_AB_zombie 100 10 NULL 0 =
      .ok ⟨ECHILD, none, none, table_AB_zombie⟩ ∧ ECHILD ≠ EFAULT := by
  decide

/-- C8, amended.  For a call whose target is not the caller:
* with `NULL` as the status location the call returns `EFAULT` at once:
  nothing is stored or copied out and the table is unchanged;
* with a location other than `NULL` on which `copyout` fails, options `0`,
  the target found among the children and the polling on it ended, the call
  returns the error of `copyout` and neither stores to `*retval` nor copies a
  status out. -/
theorem sys_waitpid_bad_status (copyout : Nat → Int) (sched : List (Kernel → Kernel))
    (k : Kernel) (curproc : Nat) (cp : proc) (pid : Int) (options : Int)
    (hcur : deref k curproc = some cp) (hself : cp.p_pid ≠ pid) :
    sys_waitpid copyout sched k curproc pid NULL options =
      .ok ⟨EFAULT, none, none, k⟩ ∧
    (∀ (status : Nat) (l1 l2 : List Nat) (c : Nat) (ch : proc) (k2 : Kernel),
      status ≠ NULL → options = 0 → copyout status ≠ 0 →
      cp.p_children = l1 ++ c :: l2 →
      (∀ x ∈ l1, ∃ xh, deref k x = some xh ∧ xh.p_pid ≠ pid) →
      deref k c = some ch → ch.p_pid = pid →
      (l1.length : Int) < int16 (array_num cp.p_children) →
      waitpid_poll sched (store k curproc { cp with p_children := l1 ++ l2 }) c = .ok k2 →
      ∃ r, sys_waitpid copyout sched k curproc pid status options = .ok r ∧
        r.ret = copyout status ∧ r.retval = none ∧ r.status = none) := by
  refine ⟨by simp [sys_waitpid, hcur, hself], ?_⟩
  intro status l1 l2 c ch k2 hst hopt hco hsplit hbefore hc hpid hrange hpoll
  obtain ⟨c2, _, _, h⟩ := sys_waitpid_found copyout sched k k2 curproc cp pid status
    options l1 l2 c ch hcur hself hst hsplit hbefore hc hpid hrange hpoll
  exact ⟨_, by rw [h, if_neg (not_not.mpr hopt), if_pos hco], rfl, rfl, rfl⟩

/-- Instance of the amended C8: `A` waits for pid `20` with `NULL` as the
status location, its child `B` having exited. -/
theorem sys_waitpid_bad_status_witness :
    deref table_AB_zombie 100 = some (pcb 10 0 (some 1) [200]) ∧
    (pcb 10 0 (some 1) [200]).p_pid ≠ 20 ∧
    sys_waitpid copyout_ok [] table_AB_zombie 100 20 NULL 0 =
      .ok ⟨EFAULT, none, none, table_AB_zombie⟩ :=
  ⟨by decide, by decide,
   (sys_waitpid_bad_status copyout_ok [] table_AB_zombie 100
      (pcb 10 0 (some 1) [200]) 20 0 (by decide) (by decide)).1⟩

/-- C9 (fails on the code).  A `sys_fork` of `A` in which `as_copy` fails
leaves the address `200` of the destroyed child in `A`'s children.  In the
next `sys_fork` of `A` everything succeeds; the allocator hands out the
released address `200` again, with the pid `21` that no live PCB has.  The
call returns `0` and stores `21`, the new PCB has `A` as its parent, and `A`'s
children are `[200, 200]`: the new PCB is entered twice, not exactly once. -/
theorem sys_fork_after_failed_fork_enters_child_twice :
    sys_fork fork_as_copy_fails table_A 100 = .ok ⟨ENOMEM, none, table_A_failed_fork⟩ ∧
    deref table_A_failed_fork 200 = none ∧
    table_A_failed_fork.map (fun e => e.2.p_pid) = [1, 10] ∧
    sys_fork fork_retry table_A_failed_fork 100 =
      .ok ⟨0, some 21,
        [(200, ⟨21, 0, 0, some 100, [], some 9⟩), (1, pcb 1 0 none [100]),
         (100, pcb 10 0 (some 1) [200, 200])]⟩ ∧
    ([200, 200] : List Nat).count 200 = 2 := by
  decide

/-- The successful `sys_fork` on a table without a stale entry.  The call
returns `0`, the allocator having handed out a PCB `init` at an address
`child` that is neither allocated nor an entry of the caller's children: the
value stored to `*retval` is the pid of the new PCB, and in the table `k4`
reached before the final `clocksleep(1)` the new PCB has the caller as its
parent, the caller's children are the former children followed by one entry
for the new PCB, and every other PCB is as before. -/
theorem sys_fork_success (env : ForkEnv) (k : Kernel) (curproc child : Nat)
    (cp init : proc) (r : ForkResult)
    (hcur : deref k curproc = some cp)
    (hnew : env.proc_create_runprogram = some (child, init))
    (hfresh : deref k child = none) (hnotin : child ∉ cp.p_children)
    (hret : sys_fork env k curproc = .ok r) (h0 : r.ret = 0) :
    r.retval = some init.p_pid ∧
    ∃ k4, r.k = env.clocksleep k4 ∧
      deref k4 child =
        some { init with p_parent := some curproc, p_addrspace := some env.as_copy_out } ∧
      deref k4 curproc = some { cp with p_children := cp.p_children ++ [child] } ∧
      (cp.p_children ++ [child]).count child = 1 ∧
      ∀ a, a ≠ curproc → a ≠ child → deref k4 a = deref k a := by
  have hne : curproc ≠ child := by
    intro h; rw [h, hfresh] at hcur; exact Option.noConfusion hcur
  have hne2 : child ≠ curproc := fun h => hne h.symm
  have hlink : fork_link k curproc child init =
      .ok (store (store (alloc k child init) child { init with p_parent := some curproc })
        curproc { cp with p_children := array_add cp.p_children child }) := by
    simp [fork_link, deref_store, deref_alloc, hne, hcur]
  unfold sys_fork at hret
  rw [hnew] at hret
  simp only [hlink] at hret
  by_cases hk : env.kmalloc = false
  · simp [hk] at hret; subst hret; simp [ENOMEM] at h0
  · simp only [hk, if_false] at hret
    by_cases ha : env.as_copy ≠ 0
    · simp [ha] at hret; subst hret; simp [ENOMEM] at h0
    · simp only [ha, if_false] at hret
      simp only [deref_store, deref_alloc, hne2, if_true, if_false, Option.map_some'] at hret
      by_cases ht : env.thread_fork ≠ 0
      · simp [ht] at hret; subst hret; exact absurd h0 ht
      · simp only [ht, if_false] at hret
        injection hret with hret
        subst hret
        refine ⟨rfl, _, rfl, ?_, ?_, ?_, ?_⟩
        · simp [deref_store, deref_alloc, hne2]
        · simp [deref_store, deref_alloc, hne, hcur, array_add]
        · simp [List.count_append, List.count_eq_zero_of_not_mem hnotin]
        · intro a h1 h2
          simp [deref_store, deref_alloc, h1, h2]

/-- Instance of `sys_fork_success`: `A` (address `100`, no children) forks
`B`, which gets address `200` and pid `20`. -/
theorem sys_fork_success_witness :
    deref table_A 100 = some (pcb 10 0 (some 1) []) ∧
    fork_ok.proc_create_runprogram = some (200, ⟨20, 0, 0, none, [], none⟩) ∧
    deref table_A 200 = none ∧ 200 ∉ (pcb 10 0 (some 1) []).p_children ∧
    sys_fork fork_ok table_A 100 = .ok ⟨0, some 20, table_AB⟩ ∧
    (some 20 : Option Int) = some (⟨20, 0, 0, none, [], none⟩ : proc).p_pid ∧
    ∃ k4, table_AB = fork_ok.clocksleep k4 ∧
      deref k4 200 = some ⟨20, 0, 0, some 100, [], some 9⟩ ∧
      deref k4 100 = some (pcb 10 0 (some 1) [200]) ∧
      ([] ++ [200]).count 200 = 1 ∧
      ∀ a, a ≠ 100 → a ≠ 200 → deref k4 a = deref table_A a :=
  ⟨by decide, rfl, by decide, by decide, by decide,
   sys_fork_success fork_ok table_A 100 200 (pcb 10 0 (some 1) [])
     ⟨20, 0, 0, none, [], none⟩ ⟨0, some 20, table_AB⟩
     (by decide) rfl (by decide) (by decide) (by decide) rfl⟩

/-! ### Waiting twice -/

/-- A property of the table that every sleep of the schedule preserves holds
when the polling loop ends, if it held when the loop began. -/
theorem waitpid_poll_preserves (P : Kernel → Prop) (c : Nat) :
    ∀ (sched : List (Kernel → Kernel)) (k k2 : Kernel),
      (∀ f ∈ sched, ∀ s, P s → P (f s)) →
      waitpid_poll sched k c = .ok k2 → P k → P k2 := by
  intro sched
  induction sched with
  | nil =>
    intro k k2 _ h hP
    rw [waitpid_poll] at h
    cases hd : deref k c with
    | none => simp [hd] at h
    | some cc =>
      rw [hd] at h
      dsimp only at h
      by_cases hs : cc.p_exitstatus ≠ 0
      · rw [if_pos hs] at h
        injection h with h
        subst h
        exact hP
      · rw [if_neg hs] at h
        exact Res.noConfusion h
  | cons f rest ih =>
    intro k k2 hf h hP
    rw [waitpid_poll] at h
    cases hd : deref k c with
    | none => simp [hd] at h
    | some cc =>
      rw [hd] at h
      dsimp only at h
      by_cases hs : cc.p_exitstatus ≠ 0
      · rw [if_pos hs] at h
        injection h with h
        subst h
        exact hP
      · rw [if_neg hs] at h
        exact ih (f k) k2 (fun g hg => hf g (List.mem_cons_of_mem f hg)) h
          (hf f (List.mem_cons_self f rest) k hP)

/-- Every result of a call that found its target has the table in which the
polling ended, less the child. -/
theorem sys_waitpid_found_table (copyout : Nat → Int) (sched : List (Kernel → Kernel))
    (k : Kernel) (curproc : Nat) (cp : proc) (pid : Int) (status : Nat) (options : Int)
    (l1 l2 : List Nat) (c : Nat) (ch : proc) (r : WaitResult)
    (hcur : deref k curproc = some cp) (hself : cp.p_pid ≠ pid) (hst : status ≠ NULL)
    (hsplit : cp.p_children = l1 ++ c :: l2)
    (hbefore : ∀ x ∈ l1, ∃ xh, deref k x = some xh ∧ xh.p_pid ≠ pid)
    (hc : deref k c = some ch) (hpid : ch.p_pid = pid)
    (hrange : (l1.length : Int) < int16 (array_num cp.p_children))
    (hret : sys_waitpid copyout sched k curproc pid status options = .ok r) :
    ∃ k2, waitpid_poll sched (store k curproc { cp with p_children := l1 ++ l2 }) c = .ok k2 ∧
      r.k = proc_destroy k2 c := by
  cases hp : waitpid_poll sched (store k curproc { cp with p_children := l1 ++ l2 }) c with
  | trap t =>
    have hscan : waitpid_scan k cp.p_children pid
        (int16 (array_num cp.p_children)).toNat 0 = .ok (some (l1.length, c)) := by
      apply waitpid_scan_found k cp.p_children pid l1.length c ch _ hc hpid _ l1.length 0
      · omega
      · omega
      · rw [hsplit, List.getElem?_append_right (le_refl _)]; simp
      · intro j hj
        obtain ⟨xh, hx, hp⟩ := hbefore _ (List.getElem_mem hj)
        refine ⟨l1[j], xh, ?_, hx, hp⟩
        rw [hsplit, List.getElem?_append_left hj, List.getElem?_eq_getElem hj]
    have hrem : array_remove cp.p_children l1.length = l1 ++ l2 := by
      rw [hsplit]; simp [array_remove, List.eraseIdx_append_of_length_le]
    simp [sys_waitpid, hcur, hself, hst, hscan, hrem, hp] at hret
  | ok k2 =>
    obtain ⟨c2, _, _, h⟩ := sys_waitpid_found copyout sched k k2 curproc cp pid status
      options l1 l2 c ch hcur hself hst hsplit hbefore hc hpid hrange hp
    refine ⟨k2, rfl, ?_⟩
    rw [h] at hret
    split_ifs at hret <;> (injection hret with hret; subst hret; rfl)

/-- C6.  The caller's children are `l1 ++ c :: l2`, all of them live PCBs
with pairwise different pids, and `c` has the pid waited for, at an index
below the loop bound.  The sleeps of the first call respect the caller's
children.  When the first `sys_waitpid` has returned, the caller's children
are `l1 ++ l2`, and every further `sys_waitpid` of the caller for the same pid
with a status location other than `NULL` returns `ESRCH` (the error of the
source for a target that is not among the children), stores nothing, copies
nothing out and leaves the table, and so every PCB, as it is. -/
theorem sys_waitpid_twice (copyout : Nat → Int) (sched : List (Kernel → Kernel))
    (k : Kernel) (curproc : Nat) (cp : proc) (pid : Int) (status : Nat) (options : Int)
    (l1 l2 : List Nat) (c : Nat) (ch : proc) (r : WaitResult)
    (hcur : deref k curproc = some cp) (hself : cp.p_pid ≠ pid) (hst : status ≠ NULL)
    (hsplit : cp.p_children = l1 ++ c :: l2)
    (hlive : ∀ x ∈ cp.p_children, deref k x ≠ none)
    (hnodup : (cp.p_children.map
      (fun x => (deref k x).map (fun p => p.p_pid))).Nodup)
    (hc : deref k c = some ch) (hpid : ch.p_pid = pid)
    (hrange : (l1.length : Int) < int16 (array_num cp.p_children))
    (hsched : ∀ f ∈ sched, sleep_respects curproc f)
    (hfirst : sys_waitpid copyout sched k curproc pid status options = .ok r) :
    (∃ cp2, deref r.k curproc = some cp2 ∧ cp2.p_children = l1 ++ l2) ∧
    deref r.k c = none ∧
    ∀ (copyout2 : Nat → Int) (sched2 : List (Kernel → Kernel)) (status2 : Nat)
      (options2 : Int), status2 ≠ NULL →
      sys_waitpid copyout2 sched2 r.k curproc pid status2 options2 =
        .ok ⟨ESRCH, none, none, r.k⟩ := by
  -- the other children have another pid than `c`
  have hother : ∀ x ∈ l1 ++ l2, x ≠ c ∧ ∃ xh, deref k x = some xh ∧ xh.p_pid ≠ pid := by
    intro x hx
    have hmem : x ∈ cp.p_children := by
      rw [hsplit]
      rcases List.mem_append.mp hx with h | h
      · exact List.mem_append_left _ h
      · exact List.mem_append_right _ (List.mem_cons_of_mem _ h)
    rw [hsplit, List.map_append, List.map_cons] at hnodup
    have hnd := (List.nodup_middle.mp hnodup)
    have hnotin := (List.nodup_cons.mp hnd).1
    rw [← List.map_append] at hnotin
    have hgx : (deref k x).map (fun p => p.p_pid) ≠ (deref k c).map (fun p => p.p_pid) := by
      intro heq
      exact hnotin (heq ▸ List.mem_map_of_mem _ hx)
    refine ⟨fun h => hgx (by rw [h]), ?_⟩
    cases hd : deref k x with
    | none => exact absurd hd (hlive x hmem)
    | some xh =>
      refine ⟨xh, rfl, fun h => hgx ?_⟩
      rw [hd, hc]; simp [h, hpid]
  have hbefore : ∀ x ∈ l1, ∃ xh, deref k x = some xh ∧ xh.p_pid ≠ pid :=
    fun x hx => (hother x (List.mem_append_left _ hx)).2
  have hne : curproc ≠ c := by
    intro h; rw [h, hc] at hcur
    injection hcur with hcur
    rw [hcur] at hpid; exact hself hpid
  obtain ⟨k2, hpoll, hrk⟩ := sys_waitpid_found_table copyout sched k curproc cp pid status
    options l1 l2 c ch r hcur hself hst hsplit hbefore hc hpid hrange hfirst
  -- what the sleeps preserve
  have hinv : ∃ cp2, deref k2 curproc = some cp2 ∧ cp2.p_pid = cp.p_pid ∧
      cp2.p_children = l1 ++ l2 ∧
      ∀ x ∈ l1 ++ l2,
        (deref k2 x).map (fun p => p.p_pid) = (deref k x).map (fun p => p.p_pid) := by
    refine waitpid_poll_preserves
      (fun s => ∃ cp2, deref s curproc = some cp2 ∧ cp2.p_pid = cp.p_pid ∧
        cp2.p_children = l1 ++ l2 ∧
        ∀ x ∈ l1 ++ l2,
          (deref s x).map (fun p => p.p_pid) = (deref k x).map (fun p => p.p_pid))
      c sched _ k2 ?_ hpoll ?_
    · intro f hf s ⟨cp2, h1, h2, h3, h4⟩
      obtain ⟨cp3, g1, g2, g3, g4⟩ := hsched f hf s cp2 h1
      refine ⟨cp3, g1, g2.trans h2, g3.trans h3, fun x hx => ?_⟩
      rw [g4 x (h3 ▸ hx), h4 x hx]
    · refine ⟨{ cp with p_children := l1 ++ l2 }, by simp [deref_store, hcur], rfl, rfl,
        fun x _ => ?_⟩
      rw [deref_store]
      by_cases hx : x = curproc
      · simp [hx, hcur]
      · simp [hx]
  obtain ⟨cp2, h1, h2, h3, h4⟩ := hinv
  have hcur3 : deref r.k curproc = some cp2 := by
    rw [hrk, deref_proc_destroy, if_neg hne, h1]
  refine ⟨⟨cp2, hcur3, h3⟩, by rw [hrk, deref_proc_destroy, if_pos rfl], ?_⟩
  intro copyout2 sched2 status2 options2 hst2
  apply sys_waitpid_absent copyout2 sched2 r.k curproc cp2 pid status2 options2 hcur3
    (h2 ▸ hself) hst2
  intro x hx
  rw [h3] at hx
  obtain ⟨hxc, xh, hxd, hxp⟩ := hother x hx
  have h5 := h4 x hx
  rw [hxd] at h5
  rw [hrk, deref_proc_destroy, if_neg hxc]
  cases hd : deref k2 x with
  | none => rw [hd] at h5; exact Option.noConfusion h5
  | some xh2 =>
    rw [hd] at h5
    simp at h5
    exact ⟨xh2, rfl, h5 ▸ hxp⟩

/-- The sleep `sets_exited a` changes neither a pid nor a children array and
releases nothing. -/
theorem sets_exited_respects (curproc a : Nat) : sleep_respects curproc (sets_exited a) := by
  intro k cp hcur
  unfold sets_exited
  cases hd : deref k a with
  | none => exact ⟨cp, hcur, rfl, rfl, fun _ _ => rfl⟩
  | some p =>
    have hpid : ∀ x, (deref (store k a { p with p_exitstatus := EXITED, p_exitcode := EXITED })
        x).map (fun q => q.p_pid) = (deref k x).map (fun q => q.p_pid) := by
      intro x
      rw [deref_store]
      by_cases hx : x = a
      · simp [hx, hd]
      · simp [hx]
    by_cases hca : curproc = a
    · subst hca
      rw [hcur] at hd
      injection hd with hd
      subst hd
      exact ⟨{ cp with p_exitstatus := EXITED, p_exitcode := EXITED },
        by simp [deref_store, hcur], rfl, rfl, fun x _ => hpid x⟩
    · exact ⟨cp, by simp [deref_store, hca, hcur], rfl, rfl, fun x _ => hpid x⟩

/-- Instance of C6: `A` has the running children at `200` and `300` and waits
for pid `30`; the child at `300` exits during the first sleep.  The first call
returns `0`, the second one `ESRCH`. -/
theorem sys_waitpid_twice_witness :
    deref table_two_running 100 = some (pcb 10 0 (some 1) [200, 300]) ∧
    (pcb 10 0 (some 1) [200, 300]).p_children = [200] ++ 300 :: [] ∧
    ((pcb 10 0 (some 1) [200, 300]).p_children.map
      (fun x => (deref table_two_running x).map (fun p => p.p_pid))).Nodup ∧
    deref table_two_running 300 = some (pcb 30 0 (some 100) []) ∧
    sys_waitpid copyout_ok [sets_exited 300] table_two_running 100 30 4096 0 =
      .ok ⟨0, some 30, some 4,
        [(1, pcb 1 0 none [100]), (100, pcb 10 0 (some 1) [200]),
         (200, pcb 20 0 (some 100) [])]⟩ ∧
    sys_waitpid copyout_ok []
        [(1, pcb 1 0 none [100]), (100, pcb 10 0 (some 1) [200]),
         (200, pcb 20 0 (some 100) [])] 100 30 4096 0 =
      .ok ⟨ESRCH, none, none,
        [(1, pcb 1 0 none [100]), (100, pcb 10 0 (some 1) [200]),
         (200, pcb 20 0 (some 100) [])]⟩ :=
  ⟨by decide, by decide, by decide, by decide, by decide,
   (sys_waitpid_twice copyout_ok [sets_exited 300] table_two_running 100
      (pcb 10 0 (some 1) [200, 300]) 30 4096 0 [200] [] 300 (pcb 30 0 (some 100) [])
      ⟨0, some 30, some 4,
        [(1, pcb 1 0 none [100]), (100, pcb 10 0 (some 1) [200]),
         (200, pcb 20 0 (some 100) [])]⟩
      (by decide) (by decide) (by decide) (by decide) (by decide) (by decide)
      (by decide) (by decide) (by decide)
      (fun f hf => by
        rw [List.mem_singleton] at hf
        subst hf
        exact sets_exited_respects 100 300)
      (by decide)).2.2 copyout_ok [] 4096 0 (by decide)⟩

/-! ### The child loop of `sys__exit` never runs out of iterations -/

/-- The loop bound is positive only for a nonempty array. -/
theorem int16_array_num_pos (l : List Nat) (i : Nat)
    (h : (i : Int) < int16 (array_num l)) : i < l.length := by
  have := int16_array_num_le l
  omega

/-- With more iterations allowed than the exiting process has children, the
child loop ends by itself: it returns a table or stops on a fault, never on
the iteration bound. -/
theorem exit_loop_fuel_suffices :
    ∀ (fuel : Nat) (k : Kernel) (p i : Nat), 0 < fuel →
      (∀ pp, deref k p = some pp → pp.p_children.length < fuel) →
      exit_loop fuel k p i ≠ .trap .fuel := by
  intro fuel
  induction fuel with
  | zero => intro k p i h; exact absurd h (Nat.lt_irrefl 0)
  | succ n ih =>
    intro k p i _ hlen
    rw [exit_loop]
    cases hd : deref k p with
    | none => simp
    | some pp =>
      dsimp only
      have hl := hlen pp hd
      by_cases hcond : (i : Int) < int16 (array_num pp.p_children)
      · rw [if_pos hcond]
        have hi := int16_array_num_pos _ _ hcond
        cases hg : array_get pp.p_children i with
        | none => simp
        | some tc =>
          dsimp only
          have herase : (array_remove pp.p_children i).length + 1 = pp.p_children.length := by
            unfold array_remove
            rw [List.length_eraseIdx, if_pos hi]
            omega
          have hp1 : deref (store k p { pp with p_children := array_remove pp.p_children i }) p
              = some { pp with p_children := array_remove pp.p_children i } := by
            simp [deref_store, hd]
          cases hc : deref (store k p { pp with p_children := array_remove pp.p_children i }) tc with
          | none => simp
          | some c =>
            dsimp only
            by_cases hex : c.p_exitstatus = EXITED
            · rw [if_pos hex]
              apply ih _ _ _ (by omega)
              intro q hq
              rw [deref_proc_destroy] at hq
              by_cases hpt : p = tc
              · simp [hpt] at hq
              · rw [if_neg hpt, hp1] at hq
                injection hq with hq
                subst hq
                simp only
                omega
            · rw [if_neg hex]
              apply ih _ _ _ (by omega)
              intro q hq
              rw [deref_store] at hq
              by_cases hpt : p = tc
              · subst hpt
                rw [hp1] at hc
                injection hc with hc
                subst hc
                simp [hp1] at hq
                subst hq
                simp only
                omega
              · rw [if_neg hpt, hp1] at hq
                injection hq with hq
                subst hq
                simp only
                omega
      · rw [if_neg hcond]
        simp

/-- The routine `sys__exit` gives the loop enough iterations: it never stops
on the iteration bound. -/
theorem sys__exit_fuel_suffices (k : Kernel) (curproc : Nat) (exitcode : Int) :
    sys__exit k curproc exitcode ≠ .trap .fuel := by
  unfold sys__exit
  cases hd : deref k curproc with
  | none => simp
  | some cp =>
    dsimp only
    by_cases has : cp.p_addrspace = none
    · rw [if_pos has]; simp
    · rw [if_neg has]
      have hloop := exit_loop_fuel_suffices (cp.p_children.length + 1)
        (store k curproc { cp with p_addrspace := none }) curproc 0 (by omega)
        (by
          intro pp hpp
          simp [deref_store, hd] at hpp
          subst hpp
          simp)
      cases hl : exit_loop (cp.p_children.length + 1)
          (store k curproc { cp with p_addrspace := none }) curproc 0 with
      | trap t =>
        dsimp only
        intro h
        injection h with h
        subst h
        exact hloop hl
      | ok k1 =>
        dsimp only
        unfold exit_final
        cases deref k1 curproc with
        | none => simp
        | some pp =>
          dsimp only
          cases pp.p_parent with
          | none => simp
          | some parent =>
            dsimp only
            cases deref k1 parent with
            | none => simp
            | some par =>
              dsimp only
              split_ifs <;> simp

/-! ### The last step of `sys__exit` -/

/-- With `p_parent == NULL` the last step of `sys__exit` faults, whatever
else the table holds. -/
theorem exit_final_without_parent (k : Kernel) (p : Nat) (pp : proc)
    (hp : deref k p = some pp) (hnone : pp.p_parent = none) :
    exit_final k p = .trap .fault := by
  simp [exit_final, hp, hnone]

/-- With a running parent the last step of `sys__exit` sets both
`p_exitstatus` and `p_exitcode` to `EXITED`; no exit code enters. -/
theorem exit_final_running_parent (k : Kernel) (p parent : Nat) (pp par : proc)
    (hp : deref k p = some pp) (hparent : pp.p_parent = some parent)
    (hpar : deref k parent = some par) (hrun : par.p_exitstatus = RUNNING) :
    exit_final k p =
      .ok (store k p { pp with p_exitstatus := EXITED, p_exitcode := EXITED }) := by
  simp [exit_final, hp, hparent, hpar, hrun]

/-- C12 (fails on the code).  `A` (pid `10`) waits for its own pid and for
pid `99`, which none of its children has: the first call returns `ECHILD`,
the second `ESRCH`, and the two numbers differ. -/
theorem sys_waitpid_two_no_child_errors :
    sys_waitpid copyout_ok [] table_AB 100 10 4096 0 =
      .ok ⟨ECHILD, none, none, table_AB⟩ ∧
    sys_waitpid copyout_ok [] table_AB 100 99 4096 0 =
      .ok ⟨ESRCH, none, none, table_AB⟩ ∧
    ECHILD ≠ ESRCH := by
  decide

/-- C12, amended.  A call of `sys_waitpid` for the caller's own pid returns
`ECHILD`; a call for another pid, with a status location other than `NULL`,
when every entry of the caller's children is a live PCB with another pid,
returns `ESRCH`; and `ECHILD` and `ESRCH` are different error numbers. -/
theorem sys_waitpid_ECHILD_or_ESRCH (copyout : Nat → Int) (sched : List (Kernel → Kernel))
    (k : Kernel) (curproc : Nat) (cp : proc) (pid : Int) (status : Nat) (options : Int)
    (hcur : deref k curproc = some cp) (hself : cp.p_pid ≠ pid) (hst : status ≠ NULL)
    (hall : ∀ x ∈ cp.p_children, ∃ xh, deref k x = some xh ∧ xh.p_pid ≠ pid) :
    (∃ r, sys_waitpid copyout sched k curproc cp.p_pid status options = .ok r ∧
      r.ret = ECHILD) ∧
    (∃ r, sys_waitpid copyout sched k curproc pid status options = .ok r ∧
      r.ret = ESRCH) ∧
    ECHILD ≠ ESRCH := by
  refine ⟨⟨⟨ECHILD, none, none, k⟩, by simp [sys_waitpid, hcur], rfl⟩,
    ⟨⟨ESRCH, none, none, k⟩, ?_, rfl⟩, by decide⟩
  exact sys_waitpid_absent copyout sched k curproc cp pid status options hcur hself hst hall

/-- Instance of the amended C12: `A` (pid `10`, one child with pid `20`)
waits for pid `10` and for pid `99`. -/
theorem sys_waitpid_ECHILD_or_ESRCH_witness :
    deref table_AB 100 = some (pcb 10 0 (some 1) [200]) ∧
    (pcb 10 0 (some 1) [200]).p_pid ≠ 99 ∧ 4096 ≠ NULL ∧
    (∃ r, sys_waitpid copyout_ok [] table_AB 100 (pcb 10 0 (some 1) [200]).p_pid 4096 0 =
      .ok r ∧ r.ret = ECHILD) ∧
    (∃ r, sys_waitpid copyout_ok [] table_AB 100 99 4096 0 = .ok r ∧ r.ret = ESRCH) ∧
    ECHILD ≠ ESRCH :=
  ⟨by decide, by decide, by decide,
   sys_waitpid_ECHILD_or_ESRCH copyout_ok [] table_AB 100 (pcb 10 0 (some 1) [200]) 99
     4096 0 (by decide) (by decide) (by decide) (by decide)⟩

/-- C13.  Whatever the table: `sys_getpid` called by a live process returns
`0`, stores the caller's `p_pid` to `*retval`, and leaves the table as it
was. -/
theorem sys_getpid_own_pid (k : Kernel) (curproc : Nat) (cp : proc)
    (hcur : deref k curproc = some cp) :
    sys_getpid k curproc = .ok (0, cp.p_pid, k) := by
  simp [sys_getpid, hcur]

/-- Instance of C13: `B` (address `200`) asks for its pid, `20`. -/
theorem sys_getpid_own_pid_witness :
    deref table_AB 200 = some ⟨20, 0, 0, some 100, [], some 9⟩ ∧
    sys_getpid table_AB 200 = .ok (0, 20, table_AB) :=
  ⟨by decide, sys_getpid_own_pid table_AB 200 ⟨20, 0, 0, some 100, [], some 9⟩ (by decide)⟩

/-- C16 (fails on the code as stated).  A `sys_fork` in which `thread_fork`
fails with error number `4`: the call returns `4`, the value of `ret`, which
is not `ENOMEM`. -/
theorem sys_fork_returns_thread_fork_error :
    sys_fork fork_thread_fork_fails_4 table_A 100 =
      .ok ⟨4, none, [(1, pcb 1 0 none [100]), (100, pcb 10 0 (some 1) [200])]⟩ ∧
    (4 : Int) ≠ ENOMEM := by
  decide

/-- C16, amended.  A `sys_fork` of a live process returns, and its return
value is fixed by the first collaborator that fails:
* `ENOMEM` when the trapframe allocation fails;
* `ENOMEM` when `proc_create_runprogram` returns `NULL`;
* `ENOMEM` when `as_copy` fails, whatever error `as_copy` returned;
* the value returned by `thread_fork` when everything before it succeeded
  (so the error number of `thread_fork` itself when the thread spawn fails);
and a call that returns a nonzero value stores nothing to `*retval`. -/
theorem sys_fork_failure_code (env : ForkEnv) (k : Kernel) (curproc : Nat) (cp : proc)
    (hcur : deref k curproc = some cp) :
    ∃ r, sys_fork env k curproc = .ok r ∧
      (env.kmalloc = false → r.ret = ENOMEM) ∧
      (env.kmalloc = true → env.proc_create_runprogram = none → r.ret = ENOMEM) ∧
      (env.kmalloc = true → env.proc_create_runprogram ≠ none → env.as_copy ≠ 0 →
        r.ret = ENOMEM) ∧
      (env.kmalloc = true → env.proc_create_runprogram ≠ none → env.as_copy = 0 →
        r.ret = env.thread_fork) ∧
      (r.ret ≠ 0 → r.retval = none) := by
  unfold sys_fork
  by_cases hk : env.kmalloc = false
  · rw [if_pos hk]
    exact ⟨_, rfl, fun _ => rfl, fun h => by rw [hk] at h; exact Bool.noConfusion h,
      fun h => by rw [hk] at h; exact Bool.noConfusion h,
      fun h => by rw [hk] at h; exact Bool.noConfusion h, fun _ => rfl⟩
  · rw [if_neg hk]
    cases hnew : env.proc_create_runprogram with
    | none =>
      exact ⟨_, rfl, fun h => absurd h hk, fun _ _ => rfl, fun _ h => absurd rfl h,
        fun _ h => absurd rfl h, fun _ => rfl⟩
    | some ci =>
      obtain ⟨child, init⟩ := ci
      dsimp only
      have hcur2 : ∃ cp2, deref (store (alloc k child init) child
          { init with p_parent := some curproc }) curproc = some cp2 := by
        by_cases hc : curproc = child
        · simp [deref_store, deref_alloc, hc]
        · simp [deref_store, deref_alloc, hc, hcur]
      obtain ⟨cp2, hcp2⟩ := hcur2
      have hlink : fork_link k curproc child init =
          .ok (store (store (alloc k child init) child { init with p_parent := some curproc })
            curproc { cp2 with p_children := array_add cp2.p_children child }) := by
        simp [fork_link, hcp2]
      rw [hlink]
      dsimp only
      by_cases ha : env.as_copy ≠ 0
      · rw [if_pos ha]
        exact ⟨_, rfl, fun h => absurd h hk, fun _ h => Option.noConfusion h,
          fun _ _ _ => rfl, fun _ _ h => absurd h ha, fun _ => rfl⟩
      · rw [if_neg ha]
        have hchild : ∃ c0, deref (store (store (alloc k child init) child
            { init with p_parent := some curproc }) curproc
            { cp2 with p_children := array_add cp2.p_children child }) child = some c0 := by
          by_cases hc : child = curproc
          · simp [deref_store, deref_alloc, hc]
          · simp [deref_store, deref_alloc, hc]
        obtain ⟨c0, hc0⟩ := hchild
        rw [hc0]
        dsimp only
        by_cases ht : env.thread_fork ≠ 0
        · rw [if_pos ht]
          exact ⟨_, rfl, fun h => absurd h hk, fun _ h => Option.noConfusion h,
            fun _ _ h => absurd h ha, fun _ _ _ => rfl, fun _ => rfl⟩
        · rw [if_neg ht]
          simp only [deref_store, hc0, if_true, Option.map_some']
          exact ⟨_, rfl, fun h => absurd h hk, fun _ h => Option.noConfusion h,
            fun _ _ h => absurd h ha, fun _ _ _ => (not_not.mp ht).symm,
            fun h => absurd rfl h⟩

/-- Instance of the amended C16: the fork of `A` in which `thread_fork` fails
with error number `4` returns `4`. -/
theorem sys_fork_failure_code_witness :
    deref table_A 100 = some (pcb 10 0 (some 1) []) ∧
    ∃ r, sys_fork fork_thread_fork_fails_4 table_A 100 = .ok r ∧
      (fork_thread_fork_fails_4.kmalloc = false → r.ret = ENOMEM) ∧
      (fork_thread_fork_fails_4.kmalloc = true →
        fork_thread_fork_fails_4.proc_create_runprogram = none → r.ret = ENOMEM) ∧
      (fork_thread_fork_fails_4.kmalloc = true →
        fork_thread_fork_fails_4.proc_create_runprogram ≠ none →
        fork_thread_fork_fails_4.as_copy ≠ 0 → r.ret = ENOMEM) ∧
      (fork_thread_fork_fails_4.kmalloc = true →
        fork_thread_fork_fails_4.proc_create_runprogram ≠ none →
        fork_thread_fork_fails_4.as_copy = 0 →
        r.ret = fork_thread_fork_fails_4.thread_fork) ∧
      (r.ret ≠ 0 → r.retval = none) :=
  ⟨by decide,
   sys_fork_failure_code fork_thread_fork_fails_4 table_A 100 (pcb 10 0 (some 1) [])
     (by decide)⟩

/-! ### A successful wait -/

/-- What a search that found an entry has seen: the entry is at an index
the loop visited, it is a live PCB with the pid looked for, and the entries
visited before it are live PCBs with another pid. -/
theorem waitpid_scan_some (k : Kernel) (l : List Nat) (pid : Int) :
    ∀ n i j c, waitpid_scan k l pid n i = .ok (some (j, c)) →
      i ≤ j ∧ j < i + n ∧ l[j]? = some c ∧
      (∃ ch, deref k c = some ch ∧ ch.p_pid = pid) ∧
      ∀ m, i ≤ m → m < j →
        ∃ x xh, l[m]? = some x ∧ deref k x = some xh ∧ xh.p_pid ≠ pid := by
  intro n
  induction n with
  | zero =>
    intro i j c h
    rw [waitpid_scan] at h
    injection h with h
    exact Option.noConfusion h
  | succ n ih =>
    intro i j c h
    rw [waitpid_scan] at h
    unfold array_get at h
    cases hg : l[i]? with
    | none => rw [hg] at h; exact Res.noConfusion h
    | some x =>
      rw [hg] at h
      dsimp only at h
      cases hd : deref k x with
      | none => rw [hd] at h; exact Res.noConfusion h
      | some xh =>
        rw [hd] at h
        dsimp only at h
        by_cases hp : xh.p_pid = pid
        · rw [if_pos hp] at h
          injection h with h
          injection h with h
          injection h with h1 h2
          subst h1
          subst h2
          exact ⟨le_refl _, by omega, hg, ⟨xh, hd, hp⟩, fun m h1 h2 => by omega⟩
        · rw [if_neg hp] at h
          obtain ⟨g1, g2, g3, g4, g5⟩ := ih (i + 1) j c h
          refine ⟨by omega, by omega, g3, g4, fun m h1 h2 => ?_⟩
          by_cases hm : m = i
          · subst hm; exact ⟨x, xh, hg, hd, hp⟩
          · exact g5 m (by omega) h2

/-- C11.  A `sys_waitpid` that returns `0`, its sleeps respecting the
caller's children: the value stored to `*retval` is the target pid; the
caller's children were `l1 ++ c :: l2` with `c` the first entry that has the
target pid; and after the call `c` is released and the caller's children are
`l1 ++ l2`, the other entries in their former order. -/
theorem sys_waitpid_success_removes_target (copyout : Nat → Int)
    (sched : List (Kernel → Kernel)) (k : Kernel) (curproc : Nat) (cp : proc) (pid : Int)
    (status : Nat) (options : Int) (r : WaitResult)
    (hcur : deref k curproc = some cp)
    (hsched : ∀ f ∈ sched, sleep_respects curproc f)
    (hret : sys_waitpid copyout sched k curproc pid status options = .ok r)
    (h0 : r.ret = 0) :
    r.retval = some pid ∧
    ∃ l1 c l2 ch, cp.p_children = l1 ++ c :: l2 ∧
      deref k c = some ch ∧ ch.p_pid = pid ∧
      (∀ x ∈ l1, ∃ xh, deref k x = some xh ∧ xh.p_pid ≠ pid) ∧
      deref r.k c = none ∧
      ∃ cp2, deref r.k curproc = some cp2 ∧ cp2.p_children = l1 ++ l2 := by
  have hself : cp.p_pid ≠ pid := by
    intro h
    simp [sys_waitpid, hcur, h] at hret
    rw [← hret] at h0
    simp [ECHILD] at h0
  have hst : status ≠ NULL := by
    intro h
    simp [sys_waitpid, hcur, hself, h] at hret
    rw [← hret] at h0
    simp [EFAULT] at h0
  -- the search found an entry
  have hfound : ∃ j c, waitpid_scan k cp.p_children pid
      (int16 (array_num cp.p_children)).toNat 0 = .ok (some (j, c)) := by
    cases hs : waitpid_scan k cp.p_children pid
        (int16 (array_num cp.p_children)).toNat 0 with
    | trap t => simp [sys_waitpid, hcur, hself, hst, hs] at hret
    | ok o =>
      cases o with
      | none =>
        simp [sys_waitpid, hcur, hself, hst, hs] at hret
        rw [← hret] at h0
        simp [ESRCH] at h0
      | some jc => exact ⟨jc.1, jc.2, rfl⟩
  obtain ⟨j, c, hscan⟩ := hfound
  obtain ⟨_, hj, hget, ⟨ch, hc, hpid⟩, hbef⟩ := waitpid_scan_some k cp.p_children pid _ 0 j c hscan
  have hjlen : j < cp.p_children.length := by
    have := int16_array_num_le cp.p_children
    omega
  have hcj : cp.p_children[j] = c := by
    rw [List.getElem?_eq_getElem hjlen] at hget
    exact Option.some.inj hget
  have hsplit : cp.p_children =
      cp.p_children.take j ++ c :: cp.p_children.drop (j + 1) := by
    rw [← hcj, ← List.drop_eq_getElem_cons hjlen, List.take_append_drop]
  have hlen1 : (cp.p_children.take j).length = j := by
    rw [List.length_take]; omega
  have hbefore : ∀ x ∈ cp.p_children.take j,
      ∃ xh, deref k x = some xh ∧ xh.p_pid ≠ pid := by
    intro x hx
    obtain ⟨m, hm, rfl⟩ := List.getElem_of_mem hx
    rw [hlen1] at hm
    obtain ⟨y, yh, hy, hyd, hyp⟩ := hbef m (Nat.zero_le m) hm
    rw [List.getElem_take] 
    rw [List.getElem?_eq_getElem (by omega)] at hy
    rw [Option.some.inj hy]
    exact ⟨yh, hyd, hyp⟩
  have hrange : ((cp.p_children.take j).length : Int) <
      int16 (array_num cp.p_children) := by
    rw [hlen1]; omega
  obtain ⟨k2, hpoll, hrk⟩ := sys_waitpid_found_table copyout sched k curproc cp pid status
    options _ _ c ch r hcur hself hst hsplit hbefore hc hpid hrange hret
  obtain ⟨c2, _, _, hval⟩ := sys_waitpid_found copyout sched k k2 curproc cp pid status
    options _ _ c ch hcur hself hst hsplit hbefore hc hpid hrange hpoll
  have hretval : r.retval = some pid := by
    rw [hval] at hret
    split_ifs at hret with h1 h2
    · injection hret with hret; rw [← hret] at h0; simp [EINVAL] at h0
    · injection hret with hret; rw [← hret] at h0; exact absurd h0 h2
    · injection hret with hret; rw [← hret]
  have hne : curproc ≠ c := by
    intro h; rw [h, hc] at hcur
    injection hcur with hcur
    rw [hcur] at hpid; exact hself hpid
  have hinv : ∃ cp2, deref k2 curproc = some cp2 ∧
      cp2.p_children = cp.p_children.take j ++ cp.p_children.drop (j + 1) := by
    refine waitpid_poll_preserves
      (fun s => ∃ cp2, deref s curproc = some cp2 ∧
        cp2.p_children = cp.p_children.take j ++ cp.p_children.drop (j + 1))
      c sched _ k2 ?_ hpoll ?_
    · intro f hf s ⟨cp2, h1, h2⟩
      obtain ⟨cp3, g1, _, g3, _⟩ := hsched f hf s cp2 h1
      exact ⟨cp3, g1, g3.trans h2⟩
    · exact ⟨{ cp with p_children := cp.p_children.take j ++ cp.p_children.drop (j + 1) },
        by simp [deref_store, hcur], rfl⟩
  obtain ⟨cp2, h1, h2⟩ := hinv
  refine ⟨hretval, _, c, _, ch, hsplit, hc, hpid, hbefore, ?_, cp2, ?_, h2⟩
  · rw [hrk, deref_proc_destroy, if_pos rfl]
  · rw [hrk, deref_proc_destroy, if_neg hne, h1]

/-- Instance of C11: `A` has the exited children at `200` and `300` and waits
for pid `30`, the second of them. -/
theorem sys_waitpid_success_removes_target_witness :
    deref table_two_zombies 100 = some (pcb 10 0 (some 1) [200, 300]) ∧
    sys_waitpid copyout_ok [] table_two_zombies 100 30 4096 0 =
      .ok ⟨0, some 30, some 4,
        [(1, pcb 1 0 none [100]), (100, pcb 10 0 (some 1) [200]),
         (200, zombie 20 (some 100) [])]⟩ ∧
    (some 30 : Option Int) = some 30 ∧
    ∃ l1 c l2 ch, (pcb 10 0 (some 1) [200, 300]).p_children = l1 ++ c :: l2 ∧
      deref table_two_zombies c = some ch ∧ ch.p_pid = 30 ∧
      (∀ x ∈ l1, ∃ xh, deref table_two_zombies x = some xh ∧ xh.p_pid ≠ 30) ∧
      deref [(1, pcb 1 0 none [100]), (100, pcb 10 0 (some 1) [200]),
         (200, zombie 20 (some 100) [])] c = none ∧
      ∃ cp2, deref [(1, pcb 1 0 none [100]), (100, pcb 10 0 (some 1) [200]),
         (200, zombie 20 (some 100) [])] 100 = some cp2 ∧ cp2.p_children = l1 ++ l2 :=
  ⟨by decide, by decide,
   sys_waitpid_success_removes_target copyout_ok [] table_two_zombies 100
     (pcb 10 0 (some 1) [200, 300]) 30 4096 0
     ⟨0, some 30, some 4,
        [(1, pcb 1 0 none [100]), (100, pcb 10 0 (some 1) [200]),
         (200, zombie 20 (some 100) [])]⟩
     (by decide) (fun f hf => absurd hf (List.not_mem_nil f)) (by decide) rfl⟩

/-- C18 (fails on the code as stated).  `A` waits with options `1` for its
exited child `B`: the call returns `EINVAL`, and `B`, which was allocated and
in `A`'s children before the call, is released and gone from the children
after it. -/
theorem sys_waitpid_EINVAL_after_reap :
    sys_waitpid copyout_ok [] table_AB_zombie 100 20 4096 1 =
      .ok ⟨EINVAL, none, none, [(1, pcb 1 0 none [100]), (100, pcb 10 0 (some 1) [])]⟩ ∧
    EINVAL ≠ 0 ∧
    deref table_AB_zombie 200 = some (zombie 20 (some 100) []) ∧
    deref [(1, pcb 1 0 none [100]), (100, pcb 10 0 (some 1) [])] 200 = none ∧
    (deref table_AB_zombie 100).map (fun p => p.p_children) = some [200] ∧
    (deref [(1, pcb 1 0 none [100]), (100, pcb 10 0 (some 1) [])] 100).map
      (fun p => p.p_children) = some [] := by
  decide

/-- C18, amended.  The calls of `sys_waitpid` that fail before a child is
taken from the array leave the table, and so the caller's children and every
PCB, as they were:
* the target is the caller's own pid: `ECHILD`;
* otherwise, the status location is `NULL`: `EFAULT`;
* otherwise, every entry of the caller's children is a live PCB with another
  pid: `ESRCH`. -/
theorem sys_waitpid_early_errors_atomic (copyout : Nat → Int)
    (sched : List (Kernel → Kernel)) (k : Kernel) (curproc : Nat) (cp : proc)
    (pid : Int) (status : Nat) (options : Int)
    (hcur : deref k curproc = some cp) :
    (cp.p_pid = pid →
      sys_waitpid copyout sched k curproc pid status options =
        .ok ⟨ECHILD, none, none, k⟩) ∧
    (cp.p_pid ≠ pid → status = NULL →
      sys_waitpid copyout sched k curproc pid status options =
        .ok ⟨EFAULT, none, none, k⟩) ∧
    (cp.p_pid ≠ pid → status ≠ NULL →
      (∀ x ∈ cp.p_children, ∃ xh, deref k x = some xh ∧ xh.p_pid ≠ pid) →
      sys_waitpid copyout sched k curproc pid status options =
        .ok ⟨ESRCH, none, none, k⟩) := by
  refine ⟨fun h => by simp [sys_waitpid, hcur, h],
    fun h1 h2 => by simp [sys_waitpid, hcur, h1, h2], fun h1 h2 h3 => ?_⟩
  exact sys_waitpid_absent copyout sched k curproc cp pid status options hcur h1 h2 h3

/-- Instance of the amended C18: `A`, with the exited child `B` (pid `20`),
waits for pid `99` with options `1`. -/
theorem sys_waitpid_early_errors_atomic_witness :
    deref table_AB_zombie 100 = some (pcb 10 0 (some 1) [200]) ∧
    sys_waitpid copyout_ok [] table_AB_zombie 100 99 4096 1 =
      .ok ⟨ESRCH, none, none, table_AB_zombie⟩ :=
  ⟨by decide,
   (sys_waitpid_early_errors_atomic copyout_ok [] table_AB_zombie 100
      (pcb 10 0 (some 1) [200]) 99 4096 1 (by decide)).2.2 (by decide) (by decide)
      (by decide)⟩

/-! ### What the child loop of `sys__exit` releases -/

theorem releases_only_exited_refl (k : Kernel) : releases_only_exited k k :=
  fun _ => ⟨fun h => h, fun pa h => Or.inl ⟨pa, h, rfl⟩⟩

theorem releases_only_exited_trans (k k1 k2 : Kernel)
    (h1 : releases_only_exited k k1) (h2 : releases_only_exited k1 k2) :
    releases_only_exited k k2 := by
  intro a
  refine ⟨fun h => (h2 a).1 ((h1 a).1 h), fun pa hpa => ?_⟩
  rcases (h1 a).2 pa hpa with ⟨pb, hb, hbs⟩ | ⟨hn, he⟩
  · rcases (h2 a).2 pb hb with ⟨pc, hc, hcs⟩ | ⟨hn, he⟩
    · exact Or.inl ⟨pc, hc, hcs.trans hbs⟩
    · exact Or.inr ⟨hn, hbs ▸ he⟩
  · exact Or.inr ⟨(h2 a).1 hn, he⟩

/-- A store that keeps the `p_exitstatus` of the PCB it overwrites. -/
theorem releases_only_exited_store (k : Kernel) (a : Nat) (v w : proc)
    (hv : deref k a = some v) (hs : w.p_exitstatus = v.p_exitstatus) :
    releases_only_exited k (store k a w) := by
  intro b
  rw [deref_store]
  by_cases hb : b = a
  · subst hb
    refine ⟨fun h => by rw [hv] at h; exact Option.noConfusion h, fun pa hpa => ?_⟩
    rw [hv] at hpa
    injection hpa with hpa
    subst hpa
    exact Or.inl ⟨w, by simp [hv], hs⟩
  · rw [if_neg hb]
    exact ⟨fun h => h, fun pa h => Or.inl ⟨pa, h, rfl⟩⟩

/-- The release of a PCB whose `p_exitstatus` is `EXITED`. -/
theorem releases_only_exited_destroy (k : Kernel) (a : Nat) (v : proc)
    (hv : deref k a = some v) (hs : v.p_exitstatus = EXITED) :
    releases_only_exited k (proc_destroy k a) := by
  intro b
  rw [deref_proc_destroy]
  by_cases hb : b = a
  · subst hb
    rw [if_pos rfl]
    refine ⟨fun _ => rfl, fun pa hpa => ?_⟩
    rw [hv] at hpa
    injection hpa with hpa
    subst hpa
    exact Or.inr ⟨rfl, hs⟩
  · rw [if_neg hb]
    exact ⟨fun h => h, fun pa h => Or.inl ⟨pa, h, rfl⟩⟩

/-- The child loop of `sys__exit` releases only PCBs whose `p_exitstatus` is
`EXITED`. -/
theorem exit_loop_releases_only_exited :
    ∀ (fuel : Nat) (k : Kernel) (p i : Nat) (k1 : Kernel),
      exit_loop fuel k p i = .ok k1 → releases_only_exited k k1 := by
  intro fuel
  induction fuel with
  | zero => intro k p i k1 h; exact Res.noConfusion h
  | succ n ih =>
    intro k p i k1 h
    rw [exit_loop] at h
    cases hd : deref k p with
    | none => rw [hd] at h; exact Res.noConfusion h
    | some pp =>
      rw [hd] at h
      dsimp only at h
      by_cases hcond : (i : Int) < int16 (array_num pp.p_children)
      · rw [if_pos hcond] at h
        cases hg : array_get pp.p_children i with
        | none => rw [hg] at h; exact Res.noConfusion h
        | some tc =>
          rw [hg] at h
          dsimp only at h
          have hstep1 : releases_only_exited k
              (store k p { pp with p_children := array_remove pp.p_children i }) :=
            releases_only_exited_store k p pp
              { pp with p_children := array_remove pp.p_children i } hd rfl
          cases hc : deref (store k p { pp with p_children := array_remove pp.p_children i })
              tc with
          | none => rw [hc] at h; exact Res.noConfusion h
          | some c =>
            rw [hc] at h
            dsimp only at h
            by_cases hex : c.p_exitstatus = EXITED
            · rw [if_pos hex] at h
              exact releases_only_exited_trans _ _ _ hstep1
                (releases_only_exited_trans _ _ _
                  (releases_only_exited_destroy _ tc c hc hex) (ih _ _ _ _ h))
            · rw [if_neg hex] at h
              exact releases_only_exited_trans _ _ _ hstep1
                (releases_only_exited_trans _ _ _
                  (releases_only_exited_store _ tc c { c with p_parent := none } hc rfl)
                  (ih _ _ _ _ h))
      · rw [if_neg hcond] at h
        injection h with h
        subst h
        exact releases_only_exited_refl k

/-- With no sleep left, the polling loop returns the table it was given. -/
theorem waitpid_poll_nil (k k2 : Kernel) (c : Nat)
    (h : waitpid_poll [] k c = .ok k2) : k2 = k := by
  rw [waitpid_poll] at h
  cases hd : deref k c with
  | none => rw [hd] at h; exact Res.noConfusion h
  | some cc =>
    rw [hd] at h
    dsimp only at h
    by_cases hs : cc.p_exitstatus ≠ 0
    · rw [if_pos hs] at h
      injection h with h
      exact h.symm
    · rw [if_neg hs] at h
      exact Res.noConfusion h

/-- What a `sys_waitpid` that returns has done to the table `k` of the call:
nothing, or else, for the caller's PCB `cp`, an index `j` of its children and
the entry `c` there, a live PCB with the pid waited for, the result table is
`proc_destroy k2 c`, where `k2` is the table in which the polling on `c` ended
when started from `k` with the entry removed, and in `k2` the `p_exitstatus`
of `c` is not `RUNNING`. -/
theorem sys_waitpid_destroys_polled_target (copyout : Nat → Int)
    (sched : List (Kernel → Kernel)) (k : Kernel) (curproc : Nat) (pid : Int)
    (status : Nat) (options : Int) (r : WaitResult)
    (hret : sys_waitpid copyout sched k curproc pid status options = .ok r) :
    r.k = k ∨
    ∃ cp j c k2 c2, deref k curproc = some cp ∧ cp.p_pid ≠ pid ∧
      array_get cp.p_children j = some c ∧
      (∃ ch, deref k c = some ch ∧ ch.p_pid = pid) ∧
      waitpid_poll sched
        (store k curproc { cp with p_children := array_remove cp.p_children j }) c = .ok k2 ∧
      deref k2 c = some c2 ∧ c2.p_exitstatus ≠ RUNNING ∧ r.k = proc_destroy k2 c := by
  unfold sys_waitpid at hret
  cases hcur : deref k curproc with
  | none => rw [hcur] at hret; exact Res.noConfusion hret
  | some cp =>
    rw [hcur] at hret
    dsimp only at hret
    by_cases hself : cp.p_pid = pid
    · rw [if_pos hself] at hret
      injection hret with hret; subst hret; exact Or.inl rfl
    · rw [if_neg hself] at hret
      by_cases hst : status = NULL
      · rw [if_pos hst] at hret
        injection hret with hret; subst hret; exact Or.inl rfl
      · rw [if_neg hst] at hret
        cases hs : waitpid_scan k cp.p_children pid
            (int16 (array_num cp.p_children)).toNat 0 with
        | trap t => rw [hs] at hret; exact Res.noConfusion hret
        | ok o =>
          rw [hs] at hret
          cases o with
          | none =>
            dsimp only at hret
            injection hret with hret; subst hret; exact Or.inl rfl
          | some jc =>
            obtain ⟨j, c⟩ := jc
            dsimp only at hret
            obtain ⟨_, _, hget, hch, _⟩ := waitpid_scan_some k cp.p_children pid _ 0 j c hs
            cases hp : waitpid_poll sched
                (store k curproc { cp with p_children := array_remove cp.p_children j })
                c with
            | trap t => rw [hp] at hret; exact Res.noConfusion hret
            | ok k2 =>
              rw [hp] at hret
              dsimp only at hret
              obtain ⟨c2, hc2, hs2⟩ := waitpid_poll_ok c sched _ k2 hp
              rw [hc2] at hret
              dsimp only at hret
              refine Or.inr ⟨cp, j, c, k2, c2, rfl, hself, hget, hch, hp, hc2, hs2, ?_⟩
              split_ifs at hret <;> (injection hret with hret; subst hret; rfl)

/-- C17.  Neither routine destroys a child that is `RUNNING`.
* A `sys_waitpid` that returns either leaves the table `k` of the call as it
  was, or it has destroyed exactly its target: an entry `c` of the caller's
  children, a live PCB with the pid waited for, and the result table is
  `proc_destroy k2 c` for the table `k2` in which the polling on `c`, started
  from `k` with the entry removed, ended, where the `p_exitstatus` of `c` is
  not `RUNNING`.
* When no other thread runs during the call (the schedule is empty), every
  PCB that is allocated before a returning `sys_waitpid` and not after it had
  a `p_exitstatus` other than `RUNNING` before the call.
* When the child loop of `sys__exit` has ended, every PCB that was allocated
  before the loop and is not allocated after it had
  `p_exitstatus == EXITED`; the loop changes no `p_exitstatus`. -/
theorem no_running_child_destroyed :
    (∀ (copyout : Nat → Int) (sched : List (Kernel → Kernel)) (k : Kernel)
        (curproc : Nat) (pid : Int) (status : Nat) (options : Int) (r : WaitResult),
      sys_waitpid copyout sched k curproc pid status options = .ok r →
      r.k = k ∨
      ∃ cp j c k2 c2, deref k curproc = some cp ∧ cp.p_pid ≠ pid ∧
        array_get cp.p_children j = some c ∧
        (∃ ch, deref k c = some ch ∧ ch.p_pid = pid) ∧
        waitpid_poll sched
          (store k curproc { cp with p_children := array_remove cp.p_children j }) c =
            .ok k2 ∧
        deref k2 c = some c2 ∧ c2.p_exitstatus ≠ RUNNING ∧ r.k = proc_destroy k2 c) ∧
    (∀ (copyout : Nat → Int) (k : Kernel) (curproc : Nat) (pid : Int) (status : Nat)
        (options : Int) (r : WaitResult),
      sys_waitpid copyout [] k curproc pid status options = .ok r →
      ∀ a pa, deref k a = some pa → deref r.k a = none → pa.p_exitstatus ≠ RUNNING) ∧
    (∀ (fuel : Nat) (k : Kernel) (p i : Nat) (k1 : Kernel),
      exit_loop fuel k p i = .ok k1 →
      ∀ a pa, deref k a = some pa → deref k1 a = none → pa.p_exitstatus = EXITED) := by
  refine ⟨fun copyout sched k curproc pid status options r hret =>
    sys_waitpid_destroys_polled_target copyout sched k curproc pid status options r hret,
    ?_, ?_⟩
  · intro copyout k curproc pid status options r hret a pa hpa hgone
    rcases sys_waitpid_destroys_polled_target copyout [] k curproc pid status options r hret
      with hk | ⟨cp, j, c, k2, c2, hcur, hself, _, ⟨ch, hch, hpid⟩, hpoll, hc2, hs2, hrk⟩
    · rw [hk, hpa] at hgone; exact Option.noConfusion hgone
    · have hk2 := waitpid_poll_nil _ k2 c hpoll
      subst hk2
      have hne : c ≠ curproc := by
        intro h
        rw [h, hcur] at hch
        injection hch with hch
        rw [hch] at hself
        exact hself hpid
      rw [deref_store, if_neg hne, hch] at hc2
      injection hc2 with hc2
      subst hc2
      rw [hrk, deref_proc_destroy] at hgone
      by_cases hac : a = c
      · subst hac
        rw [hch] at hpa
        injection hpa with hpa
        subst hpa
        exact hs2
      · rw [if_neg hac, deref_store] at hgone
        by_cases hacur : a = curproc
        · rw [if_pos hacur, hcur] at hgone
          exact Option.noConfusion hgone
        · rw [if_neg hacur, hpa] at hgone
          exact Option.noConfusion hgone
  · intro fuel k p i k1 h a pa hpa hgone
    rcases (exit_loop_releases_only_exited fuel k p i k1 h a).2 pa hpa with
      ⟨pb, hb, _⟩ | ⟨_, he⟩
    · rw [hgone] at hb; exact Option.noConfusion hb
    · exact he

/-- Instance of C17: `A` waits, no other thread running, for its exited child
`B`: the one PCB that is gone after the call, at `200`, was not `RUNNING`
before it.  `A` exits with two exited children, and the one PCB its loop
releases, at `200`, was `EXITED`. -/
theorem no_running_child_destroyed_witness :
    sys_waitpid copyout_ok [] table_AB_zombie 100 20 4096 0 =
      .ok ⟨0, some 20, some 4, [(1, pcb 1 0 none [100]), (100, pcb 10 0 (some 1) [])]⟩ ∧
    deref table_AB_zombie 200 = some (zombie 20 (some 100) []) ∧
    deref [(1, pcb 1 0 none [100]), (100, pcb 10 0 (some 1) [])] 200 = none ∧
    (zombie 20 (some 100) []).p_exitstatus ≠ RUNNING ∧
    exit_loop 3 table_two_zombies 100 0 =
      .ok [(1, pcb 1 0 none [100]), (100, pcb 10 0 (some 1) [300]),
           (300, zombie 30 (some 100) [])] ∧
    deref table_two_zombies 200 = some (zombie 20 (some 100) []) ∧
    deref [(1, pcb 1 0 none [100]), (100, pcb 10 0 (some 1) [300]),
           (300, zombie 30 (some 100) [])] 200 = none ∧
    (zombie 20 (some 100) []).p_exitstatus = EXITED :=
  ⟨by decide, by decide, by decide,
   no_running_child_destroyed.2.1 copyout_ok table_AB_zombie 100 20 4096 0
     ⟨0, some 20, some 4, [(1, pcb 1 0 none [100]), (100, pcb 10 0 (some 1) [])]⟩
     (by decide) 200 (zombie 20 (some 100) []) (by decide) (by decide),
   by decide, by decide, by decide,
   no_running_child_destroyed.2.2 3 table_two_zombies 100 0
     [(1, pcb 1 0 none [100]), (100, pcb 10 0 (some 1) [300]),
      (300, zombie 30 (some 100) [])] (by decide) 200 (zombie 20 (some 100) [])
     (by decide) (by decide)⟩

/-! ### `sys__exit` on a well-formed process -/

/-- In an array without repetitions the entry at index `i` is not among the
entries left after `array_remove` at `i`. -/
theorem not_mem_array_remove (l : List Nat) (i x : Nat) (hnd : l.Nodup)
    (hx : array_get l i = some x) : x ∉ array_remove l i := by
  unfold array_get at hx
  unfold array_remove
  intro hmem
  obtain ⟨j, hj, hjx⟩ := List.mem_eraseIdx_iff_getElem?.mp hmem
  have hi : i < l.length := by
    by_contra h
    rw [List.getElem?_eq_none (by omega)] at hx
    exact Option.noConfusion hx
  exact hj (List.getElem?_inj hi hnd (hx.trans hjx.symm)).symm

/-- The child loop of `sys__exit` for a process whose children are distinct
live PCBs, the process itself not among them: the loop ends with a table in
which the process has kept every field but its children, and every PCB that
is neither the process nor one of its children is as before. -/
theorem exit_loop_wellformed :
    ∀ (fuel : Nat) (k : Kernel) (p i : Nat) (pp : proc),
      deref k p = some pp → pp.p_children.length < fuel → pp.p_children.Nodup →
      (∀ x ∈ pp.p_children, deref k x ≠ none) → p ∉ pp.p_children →
      ∃ k1 rest, exit_loop fuel k p i = .ok k1 ∧
        deref k1 p = some { pp with p_children := rest } ∧
        ∀ a, a ≠ p → a ∉ pp.p_children → deref k1 a = deref k a := by
  intro fuel
  induction fuel with
  | zero => intro k p i pp _ h; exact absurd h (Nat.not_lt_zero _)
  | succ n ih =>
    intro k p i pp hd hlen hnd hlive hp
    rw [exit_loop, hd]
    dsimp only
    by_cases hcond : (i : Int) < int16 (array_num pp.p_children)
    · rw [if_pos hcond]
      have hi := int16_array_num_pos _ _ hcond
      have hg : array_get pp.p_children i = some pp.p_children[i] := by
        unfold array_get; exact List.getElem?_eq_getElem hi
      have htc : pp.p_children[i] ∈ pp.p_children := List.getElem_mem hi
      have htp : pp.p_children[i] ≠ p := fun h => hp (h ▸ htc)
      have hnot := not_mem_array_remove pp.p_children i _ hnd hg
      have hlen2 : (array_remove pp.p_children i).length < n := by
        unfold array_remove
        rw [List.length_eraseIdx, if_pos hi]
        omega
      have hnd2 : (array_remove pp.p_children i).Nodup := List.Nodup.eraseIdx i hnd
      have hsub : ∀ x ∈ array_remove pp.p_children i, x ∈ pp.p_children :=
        fun x hx => List.mem_of_mem_eraseIdx hx
      have hp2 : p ∉ array_remove pp.p_children i := fun h => hp (hsub p h)
      rw [hg]
      dsimp only
      cases hc : deref k pp.p_children[i] with
      | none => exact absurd hc (hlive _ htc)
      | some c =>
        have hc1 : deref (store k p { pp with p_children := array_remove pp.p_children i })
            pp.p_children[i] = some c := by
          rw [deref_store, if_neg htp, hc]
        rw [hc1]
        dsimp only
        by_cases hex : c.p_exitstatus = EXITED
        · rw [if_pos hex]
          obtain ⟨k1, rest, h1, h2, h3⟩ := ih
            (proc_destroy (store k p { pp with p_children := array_remove pp.p_children i })
              pp.p_children[i]) p (i + 1)
            { pp with p_children := array_remove pp.p_children i }
            (by rw [deref_proc_destroy, if_neg (Ne.symm htp), deref_store]; simp [hd])
            hlen2 hnd2
            (by
              intro x hx
              have hxt : x ≠ pp.p_children[i] := fun h => hnot (h ▸ hx)
              have hxp : x ≠ p := fun h => hp2 (h ▸ hx)
              rw [deref_proc_destroy, if_neg hxt, deref_store, if_neg hxp]
              exact hlive x (hsub x hx))
            hp2
          refine ⟨k1, rest, h1, h2, fun a ha hna => ?_⟩
          have hat : a ≠ pp.p_children[i] := fun h => hna (h ▸ htc)
          rw [h3 a ha (fun h => hna (hsub a h)), deref_proc_destroy, if_neg hat,
            deref_store, if_neg ha]
        · rw [if_neg hex]
          obtain ⟨k1, rest, h1, h2, h3⟩ := ih
            (store (store k p { pp with p_children := array_remove pp.p_children i })
              pp.p_children[i] { c with p_parent := none }) p (i + 1)
            { pp with p_children := array_remove pp.p_children i }
            (by rw [deref_store, if_neg (Ne.symm htp), deref_store]; simp [hd])
            hlen2 hnd2
            (by
              intro x hx
              have hxp : x ≠ p := fun h => hp2 (h ▸ hx)
              have hxt : x ≠ pp.p_children[i] := fun h => hnot (h ▸ hx)
              rw [deref_store, if_neg hxt, deref_store, if_neg hxp]
              exact hlive x (hsub x hx))
            hp2
          refine ⟨k1, rest, h1, h2, fun a ha hna => ?_⟩
          have hat : a ≠ pp.p_children[i] := fun h => hna (h ▸ htc)
          rw [h3 a ha (fun h => hna (hsub a h)), deref_store, if_neg hat,
            deref_store, if_neg ha]
    · rw [if_neg hcond]
      exact ⟨k, pp.p_children, rfl, hd, fun _ _ _ => rfl⟩

/-- C14.  A process at `p` with an address space and a live parent, whose
children are distinct live PCBs with neither `p` nor the parent among them,
calls `sys__exit`.  The routine reaches its end in a table `k1` in which the
parent's PCB, children included, is as before, and
* if the parent's `p_exitstatus` is `RUNNING`, the PCB of `p` is still
  allocated, with `p_exitstatus == EXITED` and its pid and parent link as
  before;
* otherwise the PCB of `p` has been destroyed. -/
theorem sys__exit_zombie_or_destroyed (k : Kernel) (p parent : Nat) (exitcode : Int)
    (cp par : proc)
    (hcur : deref k p = some cp) (has : cp.p_addrspace ≠ none)
    (hpar : cp.p_parent = some parent) (hparent : deref k parent = some par)
    (hne : parent ≠ p)
    (hnd : cp.p_children.Nodup) (hlive : ∀ x ∈ cp.p_children, deref k x ≠ none)
    (hp : p ∉ cp.p_children) (hpc : parent ∉ cp.p_children) :
    ∃ k1, sys__exit k p exitcode = .ok k1 ∧ deref k1 parent = some par ∧
      (par.p_exitstatus = RUNNING →
        ∃ pz, deref k1 p = some pz ∧ pz.p_exitstatus = EXITED ∧
          pz.p_pid = cp.p_pid ∧ pz.p_parent = some parent) ∧
      (par.p_exitstatus ≠ RUNNING → deref k1 p = none) := by
  have hp0 : deref (store k p { cp with p_addrspace := none }) p =
      some { cp with p_addrspace := none } := by
    simp [deref_store, hcur]
  obtain ⟨k1, rest, hloop, hp1, hframe⟩ := exit_loop_wellformed
    (cp.p_children.length + 1) (store k p { cp with p_addrspace := none }) p 0
    { cp with p_addrspace := none } hp0 (Nat.lt_succ_self _) hnd
    (by
      intro x hx
      have hxp : x ≠ p := fun h => hp (h ▸ hx)
      rw [deref_store, if_neg hxp]
      exact hlive x hx)
    hp
  have hpar1 : deref k1 parent = some par := by
    rw [hframe parent hne hpc, deref_store, if_neg hne, hparent]
  have hexit : sys__exit k p exitcode = exit_final k1 p := by
    simp [sys__exit, hcur, has, hloop]
  rw [hexit]
  unfold exit_final
  dsimp only at hp1
  rw [hp1]
  dsimp only
  rw [hpar]
  dsimp only
  rw [hpar1]
  dsimp only
  by_cases hrun : par.p_exitstatus = RUNNING
  · rw [if_pos hrun]
    refine ⟨_, rfl, ?_,
      fun _ => ⟨(⟨cp.p_pid, EXITED, EXITED, cp.p_parent, rest, none⟩ : proc), ?_, rfl, rfl,
        hpar⟩,
      fun h => absurd hrun h⟩
    · rw [deref_store, if_neg hne, hpar1]
    · simp [deref_store, hp1, hpar]
  · rw [if_neg hrun]
    refine ⟨_, rfl, ?_, fun h => absurd h hrun, fun _ => ?_⟩
    · rw [deref_proc_destroy, if_neg hne, hpar1]
    · rw [deref_proc_destroy, if_pos rfl]

/-- Instance of C14: `B` (address `200`), child of the running `A` (address
`100`), exits and stays allocated as a zombie. -/
theorem sys__exit_zombie_or_destroyed_witness :
    deref table_AB 200 = some ⟨20, 0, 0, some 100, [], some 9⟩ ∧
    deref table_AB 100 = some (pcb 10 0 (some 1) [200]) ∧
    ∃ k1, sys__exit table_AB 200 5 = .ok k1 ∧
      deref k1 100 = some (pcb 10 0 (some 1) [200]) ∧
      ((pcb 10 0 (some 1) [200]).p_exitstatus = RUNNING →
        ∃ pz, deref k1 200 = some pz ∧ pz.p_exitstatus = EXITED ∧
          pz.p_pid = (⟨20, 0, 0, some 100, [], some 9⟩ : proc).p_pid ∧
          pz.p_parent = some 100) ∧
      ((pcb 10 0 (some 1) [200]).p_exitstatus ≠ RUNNING → deref k1 200 = none) :=
  ⟨by decide, by decide,
   sys__exit_zombie_or_destroyed table_AB 200 100 5 ⟨20, 0, 0, some 100, [], some 9⟩
     (pcb 10 0 (some 1) [200]) (by decide) (by decide) rfl (by decide) (by decide)
     (by decide) (by decide) (by decide) (by decide)⟩

/-! ### The search loop and long arrays -/

/-- When the loop bound `(int16_t) array_num(...)` is not positive, the search
loop of `sys_waitpid` does not run and the call returns `ESRCH`, whatever the
children are. -/
theorem sys_waitpid_no_search (copyout : Nat → Int) (sched : List (Kernel → Kernel))
    (k : Kernel) (curproc : Nat) (cp : proc) (pid : Int) (status : Nat) (options : Int)
    (hcur : deref k curproc = some cp) (hself : cp.p_pid ≠ pid) (hst : status ≠ NULL)
    (hb : int16 (array_num cp.p_children) ≤ 0) :
    sys_waitpid copyout sched k curproc pid status options =
      .ok ⟨ESRCH, none, none, k⟩ := by
  have h0 : (int16 (array_num cp.p_children)).toNat = 0 := by omega
  simp [sys_waitpid, hcur, hself, hst, h0, waitpid_scan]

/-- The array `many_children` has 32768 entries. -/
theorem many_children_length : many_children.length = 32768 := by
  simp [many_children]

/-- The loop bound for `many_children` is negative. -/
theorem many_children_bound : int16 (array_num many_children) = -32768 := by
  rw [array_num, many_children_length]; decide

/-- The first entry of `many_children` is the address `1000`. -/
theorem many_children_cons : many_children = 1000 :: List.range' 1001 32767 := by
  unfold many_children
  rw [show (32768 : Nat) = 32767 + 1 from rfl, List.range'_succ]

/-- The PCB of `A` in `table_many`. -/
theorem table_many_caller :
    deref table_many 100 = some ⟨10, 0, 0, some 1, many_children, some 7⟩ := by
  unfold table_many
  rw [deref_cons, if_pos rfl]

/-- C15 (fails on the code).  `A` has 32768 children and waits, with a good
status location, for pid `1000`, the pid of the child at index `0` of its
array.  The loop bound `(int16_t) array_num(...)` is `-32768`, the search loop
does not run once, and the call returns `ESRCH` although an entry with the
target pid is present. -/
theorem sys_waitpid_misses_child_in_long_array :
    many_children.length = 32768 ∧
    int16 (array_num many_children) = -32768 ∧
    array_get many_children 0 = some 1000 ∧
    deref table_many 1000 = some (pcb 1000 0 (some 100) []) ∧
    sys_waitpid copyout_ok [] table_many 100 1000 4096 0 =
      .ok ⟨ESRCH, none, none, table_many⟩ := by
  refine ⟨many_children_length, many_children_bound, ?_, ?_, ?_⟩
  · rw [many_children_cons, array_get, List.getElem?_cons_zero]
  · unfold table_many
    rw [deref_cons, if_neg (by decide), deref_cons, if_neg (by decide), many_children_cons,
      List.map_cons, deref_cons, if_pos rfl]
    rfl
  · refine sys_waitpid_no_search copyout_ok [] table_many 100
      ⟨10, 0, 0, some 1, many_children, some 7⟩ 1000 4096 0 table_many_caller
      (show (10 : Int) ≠ 1000 by decide) (by decide) ?_
    show int16 (array_num many_children) ≤ 0
    rw [many_children_bound]
    decide

end OS161
